/-
  Verification of the pallet-optimizer core: a shallow embedding of the
  2D rectangle packer (src packer), the 3D orientation fitter and
  effective-limit helpers (src helpers), rate lookup and pricing
  (src pricing), the single-item optimizer (src optimizer) and the
  multi-item allocator (src binPacking), together with proofs of the
  specification's testable properties.

  Conventions of the embedding:
  * JavaScript numbers are modelled as exact rationals (ℚ).
  * `Math.round` is modelled as `jsRound` (floor of x + 1/2, which is the
    ECMAScript half-up rounding).
  * Fixed two-decimal currency strings produced by decimal.js `toFixed(2)`
    are modelled as rationals rounded half-up to two decimals (`toFixed2`);
    parsing such a string back (`parseFloat`) is the identity on the value.
  * `Array.prototype.sort` with a numeric comparator is, per the ECMAScript
    specification, a stable sort consistent with the comparator; it is
    modelled as a stable insertion sort (`List.insertionSort`).
  * Fallible lookups (`Record` access, `?? null`) are modelled with `Option`.
-/
import Mathlib

attribute [local semireducible] Rat.add Rat.sub Rat.mul Rat.inv

/-- ECMAScript `Math.round`: floor of x + 1/2 (ties go towards +∞). -/
def jsRound (q : ℚ) : ℤ :=
  Int.fdiv (q + 1/2).num ((q + 1/2).den : ℤ)

/-- Model of decimal.js `toFixed(2)` (round half-up to two decimals),
    viewed as the rational value the produced string denotes. -/
def toFixed2 (q : ℚ) : ℚ :=
  (Int.fdiv (q * 100 + 1/2).num ((q * 100 + 1/2).den : ℤ) : ℚ) / 100

namespace Packer

/-- An axis-aligned rectangle, used both for free rectangles and for the
    `usedNode` argument of the split step (source interfaces `Rect` /
    `FreeRect`). -/
structure Rect where
  x : ℚ
  y : ℚ
  w : ℚ
  h : ℚ
deriving DecidableEq, Repr

/-- An input item for `Packer.pack` (source `{ id, w, h }`). -/
structure PackItem where
  id : String
  w : ℚ
  h : ℚ
deriving DecidableEq, Repr

/-- A placed rectangle returned by `Packer.pack` (source `PackedItem`). -/
structure PackedItem where
  id : String
  x : ℚ
  y : ℚ
  width : ℚ
  height : ℚ
  rotated : Bool
deriving DecidableEq, Repr

/-- A candidate node returned by `findBestNode` (without its score). -/
structure BestNode where
  x : ℚ
  y : ℚ
  width : ℚ
  height : ℚ
  rotated : Bool
deriving DecidableEq, Repr

/-- Source `Packer.intersect`. -/
def intersects (n r : Rect) : Prop :=
  n.x < r.x + r.w ∧ n.x + n.w > r.x ∧ n.y < r.y + r.h ∧ n.y + n.h > r.y

instance (n r : Rect) : Decidable (intersects n r) := by
  unfold intersects; exact inferInstance

/-- Source `Packer.isContained`: `a` lies (inclusively) inside `b`. -/
def isContained (a b : Rect) : Prop :=
  a.x ≥ b.x ∧ a.y ≥ b.y ∧ a.x + a.w ≤ b.x + b.w ∧ a.y + a.h ≤ b.y + b.h

instance (a b : Rect) : Decidable (isContained a b) := by
  unfold isContained; exact inferInstance

/-- One candidate evaluation inside `findBestNode`: try to place a
    `pw × ph` rectangle into free rect `f`, updating the current best
    (best node, best short-side fit, best long-side fit). -/
def tryPlace (f : Rect) (pw ph : ℚ) (rot : Bool)
    (cur : Option (BestNode × ℚ × ℚ)) : Option (BestNode × ℚ × ℚ) :=
  if f.w ≥ pw ∧ f.h ≥ ph then
    let leftoverHoriz := |f.w - pw|
    let leftoverVert := |f.h - ph|
    let shortSideFit := min leftoverHoriz leftoverVert
    let longSideFit := max leftoverHoriz leftoverVert
    match cur with
    | none => some (⟨f.x, f.y, pw, ph, rot⟩, shortSideFit, longSideFit)
    | some (b, bs, bl) =>
        if shortSideFit < bs ∨ (shortSideFit = bs ∧ longSideFit < bl) then
          some (⟨f.x, f.y, pw, ph, rot⟩, shortSideFit, longSideFit)
        else
          some (b, bs, bl)
  else cur

/-- Source `Packer.findBestNode`: best-short-side-fit search over the free
    rectangles, trying the normal then the 90°-rotated orientation in each.
    (`Number.MAX_VALUE` sentinels are modelled by the `Option` state.) -/
def findBestNode (w h : ℚ) (freeRects : List Rect) : Option BestNode :=
  (freeRects.foldl
      (fun cur f => tryPlace f h w true (tryPlace f w h false cur)) none).map
    (fun bsl => bsl.1)

/-- The split of a single free rectangle by `usedNode` inside
    `Packer.splitFreeRects`: an intersected free rect contributes up to four
    fragments (above / below / left / right); an untouched one is kept.
    (The in-source width miscalculation for the right fragment is
    immediately overwritten by the fixed value, which is what we embed.) -/
def splitOne (usedNode freeRect : Rect) : List Rect :=
  if intersects usedNode freeRect then
    (if usedNode.x < freeRect.x + freeRect.w ∧ usedNode.x + usedNode.w > freeRect.x then
      (if usedNode.y > freeRect.y ∧ usedNode.y < freeRect.y + freeRect.h then
        [⟨freeRect.x, freeRect.y, freeRect.w, usedNode.y - freeRect.y⟩]
      else []) ++
      (if usedNode.y + usedNode.h < freeRect.y + freeRect.h then
        [⟨freeRect.x, usedNode.y + usedNode.h, freeRect.w,
          freeRect.y + freeRect.h - (usedNode.y + usedNode.h)⟩]
      else [])
    else []) ++
    (if usedNode.y < freeRect.y + freeRect.h ∧ usedNode.y + usedNode.h > freeRect.y then
      (if usedNode.x > freeRect.x ∧ usedNode.x < freeRect.x + freeRect.w then
        [⟨freeRect.x, freeRect.y, usedNode.x - freeRect.x, freeRect.h⟩]
      else []) ++
      (if usedNode.x + usedNode.w < freeRect.x + freeRect.w then
        [⟨usedNode.x + usedNode.w, freeRect.y,
          freeRect.x + freeRect.w - (usedNode.x + usedNode.w), freeRect.h⟩]
      else [])
    else [])
  else [freeRect]

/-- The loop of `Packer.pruneFreeRects`: walk the list, removing any rect
    contained in another (already-kept or still-pending) rect. -/
def pruneAux : List Rect → List Rect → List Rect
  | kept, [] => kept
  | kept, r :: rs =>
      if (kept ++ rs).any (fun b => decide (isContained r b)) then
        pruneAux kept rs
      else
        pruneAux (kept ++ [r]) rs

/-- Source `Packer.pruneFreeRects`. -/
def pruneFreeRects (l : List Rect) : List Rect := pruneAux [] l

/-- Source `Packer.splitFreeRects`: split every free rect against the used
    node, drop empty fragments, then prune contained rects. -/
def splitFreeRects (usedNode : Rect) (freeRects : List Rect) : List Rect :=
  pruneFreeRects
    (((freeRects.flatMap (splitOne usedNode)).filter
      (fun r => decide (r.w > 0) && decide (r.h > 0))))

/-- The placement loop of `Packer.pack` over the already-sorted items:
    find a best node for each item in turn, split the free rectangles,
    and fail atomically (`none`) as soon as one item cannot be placed. -/
def packLoop : List PackItem → List Rect → Option (List PackedItem)
  | [], _ => some []
  | item :: rest, freeRects =>
      match findBestNode item.w item.h freeRects with
      | none => none
      | some n =>
          (packLoop rest (splitFreeRects ⟨n.x, n.y, n.width, n.height⟩ freeRects)).map
            (fun ps => ⟨item.id, n.x, n.y, n.width, n.height, n.rotated⟩ :: ps)

/-- The item pre-sort of `Packer.pack`: descending by `max(w, h)`
    (stable, as ECMAScript `sort` is). -/
def sortItems (items : List PackItem) : List PackItem :=
  items.insertionSort (fun a b => max b.w b.h ≤ max a.w a.h)

/-- Source `Packer.pack` for a packer constructed with the given surface
    width and height (the only mutable state, the free-rectangle list, is
    threaded explicitly; a packer instance is constructed fresh per call
    by every caller in the repository). -/
def pack (width height : ℚ) (items : List PackItem) : Option (List PackedItem) :=
  packLoop (sortItems items) [⟨0, 0, width, height⟩]

end Packer

/- ===== Domain types (source `types.ts`) ===== -/

/-- Source `DistanceBand`. -/
inductive DistanceBand where
  | LE_100
  | KM_101_300
  | KM_301_500
  | GT_500
deriving DecidableEq, Repr

/-- Source `RejectionReason`. -/
inductive RejectionReason where
  | OVERHANG
  | HEIGHT_LIMIT
  | WEIGHT_LIMIT
  | NO_RATE_MATCH
deriving DecidableEq, Repr

/-- Source `RateCategory`. -/
inductive RateCategory where
  | STANDARD
  | HALF
  | LONG_WIDE
  | LONG_NARROW
  | PALLET_120_120
deriving DecidableEq, Repr

/-- Source `ItemOrientation`. -/
inductive ItemOrientation where
  | normal
  | rotated
  | tiltedOnSide
  | tiltedOnSideRotated
  | tiltedOnEnd
  | tiltedOnEndRotated
deriving DecidableEq, Repr

/-- Source `FitResult`. -/
structure FitResult where
  fits : Bool
  rotated : Bool
  orientation : ItemOrientation
deriving DecidableEq, Repr

/-- Source `PalletType`. -/
structure PalletType where
  id : String
  displayName : Option String
  lengthM : ℚ
  widthM : ℚ
  maxHeightCm : ℚ
  maxWeightKg : ℚ
  category : RateCategory
deriving DecidableEq, Repr

/-- Source `PalletTypesConfig`. -/
structure PalletTypesConfig where
  pallets : List PalletType
deriving DecidableEq, Repr

/-- Source `RateTier`; the `rates` record may lack a band (`?? null`),
    hence `Option`. -/
structure RateTier where
  maxWeightKg : ℚ
  rates : DistanceBand → Option ℚ

/-- Source `CategoryRates`. -/
structure CategoryRates where
  tiers : List RateTier

/-- Source `RateTableConfig`; a category may be absent from the record. -/
structure RateTableConfig where
  categories : RateCategory → Option CategoryRates

/-- Source `SurchargesConfig` (the `notes` display field is never read by
    the core and is omitted). -/
structure SurchargesConfig where
  fuelPercent : ℚ
  roadPercent : ℚ
  vatPercent : ℚ
  minimumNetPrice : ℚ
  validFrom : String
  validTo : String

/-- The transport-option pair used throughout. -/
structure TransportOptions where
  lift : Bool
  van35 : Bool
deriving DecidableEq, Repr

/-- Source `CalculationInput`. -/
structure CalculationInput where
  lengthCm : ℚ
  widthCm : ℚ
  heightCm : ℚ
  weightKg : ℚ
  distanceBand : DistanceBand
  options : TransportOptions
  packagingMarginCm : ℚ
deriving DecidableEq, Repr

/-- Source `PriceBreakdown`: each field is the rational value denoted by the
    corresponding fixed two-decimal string. -/
structure PriceBreakdown where
  baseRate : ℚ
  afterMinimum : ℚ
  fuelSurcharge : ℚ
  roadSurcharge : ℚ
  netTotal : ℚ
  vat : ℚ
  grossTotal : ℚ
deriving DecidableEq, Repr

/-- Source `EffectiveLimits`. -/
structure EffectiveLimits where
  maxHeightCm : ℚ
  maxWeightKg : ℚ
deriving DecidableEq, Repr

/-- Source `MatchResult`. -/
structure MatchResult where
  pallet : PalletType
  fitsRotated : Bool
  orientationLabel : Option String
  priceBreakdown : PriceBreakdown
  warnings : List String
deriving DecidableEq, Repr

/-- Source `RejectedResult`. -/
structure RejectedResult where
  pallet : PalletType
  reasons : List RejectionReason
deriving DecidableEq, Repr

/-- Source `OptimizerResult`. -/
structure OptimizerResult where
  recommended : Option MatchResult
  alternatives : List MatchResult
  rejected : List RejectedResult
deriving DecidableEq, Repr

/-- Source `FurnitureItem`. -/
structure FurnitureItem where
  id : String
  name : String
  lengthCm : ℚ
  widthCm : ℚ
  heightCm : ℚ
  weightKg : ℚ
deriving DecidableEq, Repr

/-- Source `MultiItemInput`. -/
structure MultiItemInput where
  items : List FurnitureItem
  distanceBand : DistanceBand
  options : TransportOptions
  packagingMarginCm : ℚ
deriving DecidableEq, Repr

/-- Source `ItemPlacement` (the optional positions are always set by
    `canAllFitOnOnePallet`, so they are plain fields here). -/
structure ItemPlacement where
  item : FurnitureItem
  orientation : ItemOrientation
  orientationLabel : String
  warnings : List String
  footprintLengthCm : ℚ
  footprintWidthCm : ℚ
  heightCm : ℚ
  positionX : ℚ
  positionY : ℚ
deriving DecidableEq, Repr

/-- Source `PalletAllocation` (the optional `layoutVisualization` is never
    produced by the allocator and is omitted). -/
structure PalletAllocation where
  pallet : PalletType
  items : List ItemPlacement
  totalWeightKg : ℚ
  priceBreakdown : PriceBreakdown
  layoutNotes : List String
deriving DecidableEq, Repr

/-- Source `UnallocatedItem`. -/
structure UnallocatedItem where
  item : FurnitureItem
  reason : String
  details : String
deriving DecidableEq, Repr

/-- Source `MultiItemResult` (`totalGross` as the value of its string). -/
structure MultiItemResult where
  allocations : List PalletAllocation
  palletCount : ℕ
  totalGross : ℚ
  unallocated : List UnallocatedItem
  warnings : List String
deriving DecidableEq, Repr

/- ===== Helpers (source `helpers.ts`) ===== -/

/-- Source `check3DFit`: try the six orientations in order, the packaging
    margin added to the two footprint dimensions only, and return the first
    orientation whose footprint and height fit; otherwise report no fit with
    the canonical `normal` orientation. -/
def check3DFit (itemLengthCm itemWidthCm itemHeightCm
    palletLengthCm palletWidthCm maxHeightCm packagingMarginCm : ℚ) : FitResult :=
  let orientations : List (ℚ × ℚ × ℚ × ItemOrientation) :=
    [(itemLengthCm + packagingMarginCm, itemWidthCm + packagingMarginCm,
        itemHeightCm, .normal),
     (itemWidthCm + packagingMarginCm, itemLengthCm + packagingMarginCm,
        itemHeightCm, .rotated),
     (itemLengthCm + packagingMarginCm, itemHeightCm + packagingMarginCm,
        itemWidthCm, .tiltedOnSide),
     (itemHeightCm + packagingMarginCm, itemLengthCm + packagingMarginCm,
        itemWidthCm, .tiltedOnSideRotated),
     (itemWidthCm + packagingMarginCm, itemHeightCm + packagingMarginCm,
        itemLengthCm, .tiltedOnEnd),
     (itemHeightCm + packagingMarginCm, itemWidthCm + packagingMarginCm,
        itemLengthCm, .tiltedOnEndRotated)]
  match orientations.find?
      (fun t => decide (t.1 ≤ palletLengthCm ∧ t.2.1 ≤ palletWidthCm ∧ t.2.2.1 ≤ maxHeightCm)) with
  | some t => { fits := true, rotated := t.2.2.2 ≠ ItemOrientation.normal, orientation := t.2.2.2 }
  | none => { fits := false, rotated := false, orientation := .normal }

/-- Source `palletDimensionsToCm` (meters times 100). -/
def palletDimensionsToCm (pallet : PalletType) : ℚ × ℚ :=
  (pallet.lengthM * 100, pallet.widthM * 100)

/-- Source `getEffectiveLimits`. -/
def getEffectiveLimits (options : TransportOptions)
    (palletMaxHeightCm palletMaxWeightKg : ℚ) : EffectiveLimits :=
  let maxHeightCm := min 220 palletMaxHeightCm
  let maxWeightKg := min 1500 palletMaxWeightKg
  if options.van35 then
    { maxHeightCm := min 180 maxHeightCm, maxWeightKg := min 400 maxWeightKg }
  else if options.lift then
    { maxHeightCm := maxHeightCm, maxWeightKg := min 750 maxWeightKg }
  else
    { maxHeightCm := maxHeightCm, maxWeightKg := maxWeightKg }

/-- Source `isNearLimit` (with its default 5% threshold). -/
def isNearLimit (value limit : ℚ) : Prop :=
  value ≥ limit - limit * (5 / 100) ∧ value ≤ limit

instance (value limit : ℚ) : Decidable (isNearLimit value limit) := by
  unfold isNearLimit; exact inferInstance

/- ===== Pricing (source `pricing.ts`) ===== -/

/-- Source `findRate`: look up the category, take the first tier whose
    weight ceiling admits the weight, then the rate for the band. -/
def findRate (rateTable : RateTableConfig) (category : RateCategory)
    (weightKg : ℚ) (distanceBand : DistanceBand) : Option ℚ :=
  match rateTable.categories category with
  | none => none
  | some categoryRates =>
      match categoryRates.tiers.find? (fun tier => decide (weightKg ≤ tier.maxWeightKg)) with
      | none => none
      | some applicableTier => applicableTier.rates distanceBand

/-- Source `calculatePrice`: minimum-net floor, fuel and road percentage
    surcharges, then VAT; every reported field is a two-decimal value. -/
def calculatePrice (baseRate : ℚ) (surcharges : SurchargesConfig) : PriceBreakdown :=
  let afterMinimum := max baseRate surcharges.minimumNetPrice
  let fuelSurcharge := afterMinimum * (surcharges.fuelPercent / 100)
  let roadSurcharge := afterMinimum * (surcharges.roadPercent / 100)
  let netTotal := afterMinimum + fuelSurcharge + roadSurcharge
  let vat := netTotal * (surcharges.vatPercent / 100)
  let grossTotal := netTotal + vat
  { baseRate := toFixed2 baseRate
    afterMinimum := toFixed2 afterMinimum
    fuelSurcharge := toFixed2 fuelSurcharge
    roadSurcharge := toFixed2 roadSurcharge
    netTotal := toFixed2 netTotal
    vat := toFixed2 vat
    grossTotal := toFixed2 grossTotal }

/- ===== Single-item optimizer (source `optimizer.ts`) ===== -/

namespace Optimizer

/-- Source `getOrientationLabel` of `optimizer.ts` (null for `normal`). -/
def getOrientationLabel : ItemOrientation → Option String
  | .normal => none
  | .rotated => some "Obrócony na palecie"
  | .tiltedOnSide => some "Położony na boku"
  | .tiltedOnSideRotated => some "Na boku + obrócony"
  | .tiltedOnEnd => some "Postawiony na końcu"
  | .tiltedOnEndRotated => some "Na końcu + obrócony"

/-- The 3D fit computed for one pallet inside `optimize`: margin is added
    to the item's length and width up front, the height budget is the
    effective height limit minus the 15 cm pallet base. -/
def palletFitResult (input : CalculationInput) (pallet : PalletType) : FitResult :=
  let effectiveLengthCm := input.lengthCm + input.packagingMarginCm
  let effectiveWidthCm := input.widthCm + input.packagingMarginCm
  let effectiveHeightCm := input.heightCm
  let palletCm := palletDimensionsToCm pallet
  let limits := getEffectiveLimits input.options pallet.maxHeightCm pallet.maxWeightKg
  check3DFit effectiveLengthCm effectiveWidthCm effectiveHeightCm
    palletCm.1 palletCm.2 (limits.maxHeightCm - 15) 0

/-- The rejection reasons collected for one pallet inside `optimize`:
    the fit, weight and rate checks all run unconditionally. -/
def palletRejectionReasons (input : CalculationInput) (rateTable : RateTableConfig)
    (pallet : PalletType) : List RejectionReason :=
  let limits := getEffectiveLimits input.options pallet.maxHeightCm pallet.maxWeightKg
  (if (palletFitResult input pallet).fits then [] else [.OVERHANG]) ++
  (if input.weightKg > limits.maxWeightKg then [.WEIGHT_LIMIT] else []) ++
  (match findRate rateTable pallet.category input.weightKg input.distanceBand with
   | none => [.NO_RATE_MATCH]
   | some _ => [])

/-- The warnings collected for one accepted pallet inside `optimize`. -/
def palletWarnings (input : CalculationInput) (pallet : PalletType) : List String :=
  let limits := getEffectiveLimits input.options pallet.maxHeightCm pallet.maxWeightKg
  if input.weightKg > limits.maxWeightKg then []
  else if isNearLimit input.weightKg limits.maxWeightKg then
    ["Waga na styk: " ++ toString input.weightKg ++ "kg / " ++
      toString limits.maxWeightKg ++ "kg"]
  else []

/-- Source `optimize`: evaluate every pallet, collect rejections and priced
    candidates, sort candidates ascending by gross total (stably), and
    surface the cheapest plus up to three alternatives. -/
def optimize (input : CalculationInput) (palletTypes : PalletTypesConfig)
    (rateTable : RateTableConfig) (surcharges : SurchargesConfig) : OptimizerResult :=
  let rejected := palletTypes.pallets.filterMap (fun pallet =>
    let reasons := palletRejectionReasons input rateTable pallet
    if reasons.isEmpty then none else some { pallet := pallet, reasons := reasons })
  let candidates := palletTypes.pallets.filterMap (fun pallet =>
    let reasons := palletRejectionReasons input rateTable pallet
    if reasons.isEmpty then
      let fitResult := palletFitResult input pallet
      let rate := (findRate rateTable pallet.category input.weightKg input.distanceBand).getD 0
      some { pallet := pallet
             fitsRotated := fitResult.rotated
             orientationLabel := getOrientationLabel fitResult.orientation
             priceBreakdown := calculatePrice rate surcharges
             warnings := palletWarnings input pallet }
    else none)
  let sortedCandidates := candidates.insertionSort
    (fun a b => a.priceBreakdown.grossTotal ≤ b.priceBreakdown.grossTotal)
  { recommended := sortedCandidates.head?
    alternatives := (sortedCandidates.drop 1).take 3
    rejected := rejected }

end Optimizer

/- ===== Multi-item allocator (source `binPacking.ts`) ===== -/

namespace BinPacking

/-- Source constant `PALLET_BASE_HEIGHT_CM`. -/
def PALLET_BASE_HEIGHT_CM : ℚ := 15

/-- Source `getEffectiveDimensions`: margin on length and width, never on
    height. -/
structure EffectiveDims where
  lengthCm : ℚ
  widthCm : ℚ
  heightCm : ℚ
  weightKg : ℚ
deriving DecidableEq, Repr

def getEffectiveDimensions (item : FurnitureItem) (marginCm : ℚ) : EffectiveDims :=
  { lengthCm := item.lengthCm + marginCm
    widthCm := item.widthCm + marginCm
    heightCm := item.heightCm
    weightKg := item.weightKg }

/-- A footprint, as produced by `getFootprintForOrientation`. -/
structure Footprint where
  length : ℚ
  width : ℚ
  height : ℚ
deriving DecidableEq, Repr

/-- Source `getFootprintForOrientation`. -/
def getFootprintForOrientation (dims : EffectiveDims) :
    ItemOrientation → Footprint
  | .normal => ⟨dims.lengthCm, dims.widthCm, dims.heightCm⟩
  | .rotated => ⟨dims.widthCm, dims.lengthCm, dims.heightCm⟩
  | .tiltedOnSide => ⟨dims.lengthCm, dims.heightCm, dims.widthCm⟩
  | .tiltedOnSideRotated => ⟨dims.heightCm, dims.lengthCm, dims.widthCm⟩
  | .tiltedOnEnd => ⟨dims.widthCm, dims.heightCm, dims.lengthCm⟩
  | .tiltedOnEndRotated => ⟨dims.heightCm, dims.widthCm, dims.lengthCm⟩

/-- Source `getOrientationLabel` of `binPacking.ts`. -/
def getOrientationLabel : ItemOrientation → String
  | .normal => "Normalnie"
  | .rotated => "Obrócony na palecie"
  | .tiltedOnSide => "Położony na boku"
  | .tiltedOnSideRotated => "Na boku + obrócony"
  | .tiltedOnEnd => "Postawiony na sztorc"
  | .tiltedOnEndRotated => "Na sztorc + obrócony"

/-- `orientation.includes('tilted')` on the six orientation names. -/
def isTiltedOrientation : ItemOrientation → Bool
  | .tiltedOnSide => true
  | .tiltedOnSideRotated => true
  | .tiltedOnEnd => true
  | .tiltedOnEndRotated => true
  | _ => false

/-- The per-item record accumulated in the first pass of
    `canAllFitOnOnePallet` (source local `preparedItems`). -/
structure PreparedItem where
  id : String
  w : ℚ
  h : ℚ
  originalItem : FurnitureItem
  orientation : ItemOrientation
  orientationLabel : String
  footprint : Footprint
  warnings : List String
deriving DecidableEq, Repr

/-- Placeholder used to model the source's non-null assertion on
    `preparedItems.find(...)!` (provably never surfaced). -/
def defaultPrepared : PreparedItem :=
  { id := "", w := 0, h := 0
    originalItem := { id := "", name := "", lengthCm := 0, widthCm := 0, heightCm := 0, weightKg := 0 }
    orientation := .normal, orientationLabel := "", footprint := ⟨0, 0, 0⟩, warnings := [] }

/-- First pass of `canAllFitOnOnePallet`: check each item's individual 3D
    fit in order and build the prepared-item list; the first item that fits
    in no orientation aborts with that item's layout note. -/
def prepareItems (palletLengthCm palletWidthCm availableHeight marginCm : ℚ) :
    List FurnitureItem → Except String (List PreparedItem)
  | [] => .ok []
  | item :: rest =>
      let fitResult := check3DFit item.lengthCm item.widthCm item.heightCm
        palletLengthCm palletWidthCm availableHeight marginCm
      if fitResult.fits then
        let dims := getEffectiveDimensions item marginCm
        let footprint := getFootprintForOrientation dims fitResult.orientation
        let orientationLabel := getOrientationLabel fitResult.orientation
        let itemWarnings :=
          (if footprint.height ≥ availableHeight - 10 then
            ["Na styk z limitem wysokości (" ++ toString footprint.height ++
              "cm / " ++ toString availableHeight ++ "cm)"]
          else []) ++
          (if isTiltedOrientation fitResult.orientation then
            ["Musi być " ++ orientationLabel.toLower]
          else [])
        match prepareItems palletLengthCm palletWidthCm availableHeight marginCm rest with
        | .error e => .error e
        | .ok ps =>
            .ok ({ id := item.id
                   w := ((jsRound footprint.width : ℤ) : ℚ)
                   h := ((jsRound footprint.length : ℤ) : ℚ)
                   originalItem := item
                   orientation := fitResult.orientation
                   orientationLabel := orientationLabel
                   footprint := footprint
                   warnings := itemWarnings } :: ps)
      else
        .error (item.name ++ " nie mieści się")

/-- `(current.y < other.y + other.height) && (current.y + current.height > other.y)`:
    the Y-axis overlap test of the row-grouping pass. -/
def yOverlap (a b : Packer.PackedItem) : Prop :=
  a.y < b.y + b.height ∧ a.y + a.height > b.y

instance (a b : Packer.PackedItem) : Decidable (yOverlap a b) := by
  unfold yOverlap; exact inferInstance

/-- The inner scan of the grouping worklist: walk `remainingForGrouping`
    from its last index down to 0, splicing out every rect that Y-overlaps
    the current one. Returns (kept in order, removed in push order). -/
def scanRem (cur : Packer.PackedItem) :
    List Packer.PackedItem → List Packer.PackedItem × List Packer.PackedItem
  | [] => ([], [])
  | x :: xs =>
      let kr := scanRem cur xs
      if yOverlap cur x then (kr.1, kr.2 ++ [x]) else (x :: kr.1, kr.2)

/-- The grouping worklist (source `while (queue.length > 0)` with
    `queue.pop()`, i.e. a stack), fuelled: with enough fuel the stack is
    always exhausted and the fuel-out branch is unreachable. -/
def bfsF : ℕ → List Packer.PackedItem → List Packer.PackedItem →
    List Packer.PackedItem → List Packer.PackedItem × List Packer.PackedItem
  | 0, group, _, remaining => (group, remaining)
  | fuel + 1, group, stack, remaining =>
      match stack with
      | [] => (group, remaining)
      | cur :: rest =>
          let kr := scanRem cur remaining
          bfsF fuel (group ++ kr.2) (kr.2.reverse ++ rest) kr.1

/-- One connected Y-overlap component: grow the seed's group until the
    worklist is empty. -/
def bfsGroup (group stack remaining : List Packer.PackedItem) :
    List Packer.PackedItem × List Packer.PackedItem :=
  bfsF (stack.length + 2 * remaining.length) group stack remaining

/-- `remainingForGrouping.sort((a, b) => a.y - b.y)` (stable). -/
def sortByY (l : List Packer.PackedItem) : List Packer.PackedItem :=
  l.insertionSort (fun a b => a.y ≤ b.y)

/-- The outer grouping loop of `canAllFitOnOnePallet`: repeatedly sort the
    remaining rects by y, shift the first as a seed and collect its
    Y-overlap component. -/
def groupLoopF : ℕ → List Packer.PackedItem → List (List Packer.PackedItem)
  | 0, _ => []
  | fuel + 1, remaining =>
      match sortByY remaining with
      | [] => []
      | seed :: rest =>
          let gr := bfsGroup [seed] [seed] rest
          gr.1 :: groupLoopF fuel gr.2

/-- Row grouping of the packed result (fuelled by the list length, which
    always suffices). -/
def groupPackedItems (l : List Packer.PackedItem) : List (List Packer.PackedItem) :=
  groupLoopF l.length l

/-- Fold-based minimum of `f` over a list (JS `Math.min` from `Infinity`;
    0 for the empty list, where the source value is never consumed). -/
def listMinQ {α : Type} (f : α → ℚ) : List α → ℚ
  | [] => 0
  | x :: xs => xs.foldl (fun acc p => min acc (f p)) (f x)

/-- Fold-based maximum of `f` over a list (JS `Math.max` from `-Infinity`). -/
def listMaxQ {α : Type} (f : α → ℚ) : List α → ℚ
  | [] => 0
  | x :: xs => xs.foldl (fun acc p => max acc (f p)) (f x)

/-- `(palletWidth - groupWidth) / 2 - minX`: the horizontal centering
    offset of one row group. -/
def groupOffsetX (palletW : ℚ) (g : List Packer.PackedItem) : ℚ :=
  (palletW - (listMaxQ (fun p => p.x + p.width) g - listMinQ (fun p => p.x) g)) / 2 -
    listMinQ (fun p => p.x) g

/-- Reading `finalPositions.get(id)` where the map was filled by successive
    `set`s: the last write wins, i.e. the first match in the reversed
    write sequence. -/
def lookupPos (positions : List (String × ℚ × ℚ)) (id : String) : ℚ × ℚ :=
  match positions.reverse.find? (fun e => e.1 = id) with
  | some e => e.2
  | none => (0, 0)

/-- Result record of `canAllFitOnOnePallet`. -/
structure CanFitResult where
  fits : Bool
  placements : List ItemPlacement
  layoutNotes : List String
deriving DecidableEq, Repr

/-- The per-group centered position writes of the row-centering
    post-process, in `finalPositions.set` order. -/
def placementPositions (palletW : ℚ) (packedResult : List Packer.PackedItem) :
    List (String × ℚ × ℚ) :=
  (groupPackedItems packedResult).flatMap (fun g =>
    let offX := groupOffsetX palletW g
    g.map (fun p => (p.id, p.x + offX, p.y)))

/-- `(Math.round(palletCm.lengthCm) - finalBoundingHeight) / 2 - minGlobalY`. -/
def globalOffsetYOf (palletL : ℚ) (packedResult : List Packer.PackedItem) : ℚ :=
  (palletL -
      (listMaxQ (fun p => p.y + p.height) packedResult -
        listMinQ (fun p => p.y) packedResult)) / 2 -
    listMinQ (fun p => p.y) packedResult

/-- The final placements built by `canAllFitOnOnePallet` out of the packed
    rectangles: positions come from the centered per-row map plus the
    global vertical offset. -/
def buildPlacements (palletW palletL : ℚ) (preparedItems : List PreparedItem)
    (packedResult : List Packer.PackedItem) : List ItemPlacement :=
  packedResult.map (fun packed =>
    let original := (preparedItems.find? (fun p => p.id = packed.id)).getD defaultPrepared
    let pos := lookupPos (placementPositions palletW packedResult) packed.id
    { item := original.originalItem
      orientation := original.orientation
      orientationLabel := original.orientationLabel
      warnings := original.warnings
      footprintWidthCm := packed.width
      footprintLengthCm := packed.height
      heightCm := ((jsRound original.footprint.height : ℤ) : ℚ)
      positionX := pos.1
      positionY := pos.2 + globalOffsetYOf palletL packedResult })

/-- Source `canAllFitOnOnePallet`: weight gate, per-item orientation fit,
    2D packing of the rounded footprints, then the row-centering
    post-process producing the final placements. -/
def canAllFitOnOnePallet (items : List FurnitureItem) (pallet : PalletType)
    (marginCm : ℚ) (options : TransportOptions) : CanFitResult :=
  let palletCm := palletDimensionsToCm pallet
  let limits := getEffectiveLimits options pallet.maxHeightCm pallet.maxWeightKg
  let availableHeight := limits.maxHeightCm - PALLET_BASE_HEIGHT_CM
  let totalWeight := items.foldl (fun s it => s + it.weightKg) 0
  if totalWeight > limits.maxWeightKg then
    { fits := false, placements := [], layoutNotes := ["Przekroczony limit wagi"] }
  else
    match prepareItems palletCm.1 palletCm.2 availableHeight marginCm items with
    | .error note => { fits := false, placements := [], layoutNotes := [note] }
    | .ok preparedItems =>
        let palletW : ℚ := ((jsRound palletCm.2 : ℤ) : ℚ)
        let palletL : ℚ := ((jsRound palletCm.1 : ℤ) : ℚ)
        let packerInput := preparedItems.map (fun p => Packer.PackItem.mk p.id p.w p.h)
        match Packer.pack palletW palletL packerInput with
        | none =>
            { fits := false, placements := []
              layoutNotes := ["Meble nie mieszczą się na powierzchni palety"] }
        | some packedResult =>
            { fits := true
              placements := buildPlacements palletW palletL preparedItems packedResult
              layoutNotes := [] }

/-- The specification's axis-aligned non-overlap condition on two final
    placements (`footprintWidthCm` extends along X, `footprintLengthCm`
    along Y). -/
def placementNoOverlap (a b : ItemPlacement) : Prop :=
  a.positionX + a.footprintWidthCm ≤ b.positionX ∨
    b.positionX + b.footprintWidthCm ≤ a.positionX ∨
    a.positionY + a.footprintLengthCm ≤ b.positionY ∨
    b.positionY + b.footprintLengthCm ≤ a.positionY

instance (a b : ItemPlacement) : Decidable (placementNoOverlap a b) := by
  unfold placementNoOverlap; exact inferInstance

/-- A final placement lies within the `palletW × palletL` pallet surface. -/
def placementWithin (palletW palletL : ℚ) (a : ItemPlacement) : Prop :=
  0 ≤ a.positionX ∧ 0 ≤ a.positionY ∧
    a.positionX + a.footprintWidthCm ≤ palletW ∧
    a.positionY + a.footprintLengthCm ≤ palletL

instance (palletW palletL : ℚ) (a : ItemPlacement) :
    Decidable (placementWithin palletW palletL a) := by
  unfold placementWithin; exact inferInstance

/-- The approximate per-pallet rate used to sort pallets in
    `optimizeMultiItem` (`findRate(..., 50, band) || 999`; note that the
    JS `||` also replaces a zero rate by the sentinel). -/
def approxPalletRate (rateTable : RateTableConfig) (distanceBand : DistanceBand)
    (p : PalletType) : ℚ :=
  match findRate rateTable p.category 50 distanceBand with
  | some v => if v = 0 then 999 else v
  | none => 999

/-- Pallets sorted ascending by approximate rate (stable). -/
def sortPallets (rateTable : RateTableConfig) (distanceBand : DistanceBand)
    (pallets : List PalletType) : List PalletType :=
  pallets.insertionSort (fun a b =>
    approxPalletRate rateTable distanceBand a ≤ approxPalletRate rateTable distanceBand b)

/-- The effective footprint area used to sort items largest-first. -/
def itemArea (marginCm : ℚ) (it : FurnitureItem) : ℚ :=
  (it.lengthCm + marginCm) * (it.widthCm + marginCm)

/-- Items sorted descending by effective footprint area (stable). -/
def sortItemsByArea (marginCm : ℚ) (items : List FurnitureItem) : List FurnitureItem :=
  items.insertionSort (fun a b => itemArea marginCm b ≤ itemArea marginCm a)

/-- `items.reduce((sum, item) => sum + item.weightKg, 0)` (both the plain
    Phase-1 summation and the decimal.js Phase-2 summation are exact on
    rationals, so one definition serves both). -/
def sumWeights (items : List FurnitureItem) : ℚ :=
  items.foldl (fun s it => s + it.weightKg) 0

/-- The context shared by both allocation phases of `optimizeMultiItem`. -/
structure AllocCtx where
  sortedPallets : List PalletType
  distanceBand : DistanceBand
  options : TransportOptions
  packagingMarginCm : ℚ
  rateTable : RateTableConfig
  surcharges : SurchargesConfig

/-- The Phase-1 attempt for one pallet: joint-fit all sorted items; only a
    successful joint fit with an applicable rate is a pick (a fitting pallet
    without a rate is skipped, without committing). -/
def phase1Try (ctx : AllocCtx) (sortedItems : List FurnitureItem) (pallet : PalletType) :
    Option (PalletType × CanFitResult × ℚ × ℚ) :=
  let result := canAllFitOnOnePallet sortedItems pallet ctx.packagingMarginCm ctx.options
  if result.fits then
    let totalWeight := sumWeights sortedItems
    match findRate ctx.rateTable pallet.category totalWeight ctx.distanceBand with
    | some rate => some (pallet, result, totalWeight, rate)
    | none => none
  else none

/-- The Phase-1 scan: for each pallet in price order, joint-fit all sorted
    items; the first pallet with a successful joint fit AND an applicable
    rate is picked. -/
def phase1Pick (ctx : AllocCtx) (sortedItems : List FurnitureItem) :
    Option (PalletType × CanFitResult × ℚ × ℚ) :=
  ctx.sortedPallets.findSome? (phase1Try ctx sortedItems)

/-- The candidate group sizes of the Phase-2 inner loop:
    `min(remaining, 4)` down to `1`. -/
def countList (remainingLength : ℕ) : List ℕ :=
  (List.range' 1 (min remainingLength 4)).reverse

/-- One `(pallet, count)` attempt of Phase 2: joint-fit the first `count`
    remaining items; on fit AND rate, produce the allocation, the allocated
    items, and the gross cost per item. -/
def tryCount (ctx : AllocCtx) (remaining : List FurnitureItem) (pallet : PalletType)
    (count : ℕ) : Option (PalletAllocation × List FurnitureItem × ℚ) :=
  let itemsToTry := remaining.take count
  let result := canAllFitOnOnePallet itemsToTry pallet ctx.packagingMarginCm ctx.options
  if result.fits then
    let totalWeight := sumWeights itemsToTry
    match findRate ctx.rateTable pallet.category totalWeight ctx.distanceBand with
    | some rate =>
        let price := calculatePrice rate ctx.surcharges
        some ({ pallet := pallet, items := result.placements, totalWeightKg := totalWeight,
                priceBreakdown := price, layoutNotes := result.layoutNotes },
              itemsToTry, price.grossTotal / (count : ℚ))
    | none => none
  else none

/-- The Phase-2 inner count loop for one pallet: first success (fit AND
    rate) wins, smaller counts are not explored afterwards. -/
def tryPallet (ctx : AllocCtx) (remaining : List FurnitureItem) (pallet : PalletType) :
    Option (PalletAllocation × List FurnitureItem × ℚ) :=
  (countList remaining.length).findSome? (tryCount ctx remaining pallet)

/-- The Phase-2 selection across pallets: keep the candidate with the
    strictly lowest cost per item (earlier pallets win ties). -/
def pickBest (ctx : AllocCtx) (remaining : List FurnitureItem) :
    Option (PalletAllocation × List FurnitureItem × ℚ) :=
  ctx.sortedPallets.foldl (fun best pallet =>
    match tryPallet ctx remaining pallet with
    | none => best
    | some cand =>
        match best with
        | none => some cand
        | some b => if cand.2.2 < b.2.2 then some cand else some b) none

/-- The mutable state of the Phase-2 outer loop. -/
structure P2State where
  remaining : List FurnitureItem
  allocations : List PalletAllocation
  unallocated : List UnallocatedItem
  warnings : List String
deriving Repr

/-- One iteration of the Phase-2 outer loop: commit the best allocation and
    filter out its items, or demote the first remaining item to the
    unallocated list with reason `NO_FIT`. -/
def phase2Step (ctx : AllocCtx) (s : P2State) : P2State :=
  match s.remaining with
  | [] => s
  | first :: rest =>
      match pickBest ctx s.remaining with
      | some cand =>
          let allocatedIds := cand.2.1.map (fun it => it.id)
          { s with allocations := s.allocations ++ [cand.1]
                   remaining := s.remaining.filter (fun it => !(allocatedIds.contains it.id)) }
      | none =>
          { s with remaining := rest
                   unallocated := s.unallocated ++
                     [{ item := first, reason := "NO_FIT"
                        details := "Nie znaleziono pasującej palety (lub zbyt duża waga)" }]
                   warnings := s.warnings ++
                     ["Mebel \"" ++ first.name ++ "\" nie mieści się na żadnej palecie"] }

/-- The Phase-2 outer loop, fuelled; `optimizeMultiItem` supplies the
    remaining-item count as fuel, which always suffices. -/
def phase2Fuel (ctx : AllocCtx) : ℕ → P2State → P2State
  | 0, s => s
  | fuel + 1, s =>
      match s.remaining with
      | [] => s
      | _ => phase2Fuel ctx fuel (phase2Step ctx s)

/-- `allocations.reduce(... gross total sum, 0)`. -/
def sumGross (allocs : List PalletAllocation) : ℚ :=
  allocs.foldl (fun s a => s + a.priceBreakdown.grossTotal) 0

/-- The allocation context `optimizeMultiItem` works in: the price-sorted
    pallet list plus the input's band, options, margin and tables. -/
def allocCtxOf (input : MultiItemInput) (palletTypes : PalletTypesConfig)
    (rateTable : RateTableConfig) (surcharges : SurchargesConfig) : AllocCtx :=
  { sortedPallets := sortPallets rateTable input.distanceBand palletTypes.pallets
    distanceBand := input.distanceBand
    options := input.options, packagingMarginCm := input.packagingMarginCm
    rateTable := rateTable, surcharges := surcharges }

/-- The area-descending item order shared by both phases. -/
def sortedItemsOf (input : MultiItemInput) : List FurnitureItem :=
  sortItemsByArea input.packagingMarginCm input.items

/-- Source `optimizeMultiItem`: sort pallets by approximate rate and items
    by descending area, attempt the single-pallet Phase 1, and fall back to
    the greedy Phase-2 grouping loop for whatever remains. -/
def optimizeMultiItem (input : MultiItemInput) (palletTypes : PalletTypesConfig)
    (rateTable : RateTableConfig) (surcharges : SurchargesConfig) : MultiItemResult :=
  let sortedItems := sortedItemsOf input
  let ctx : AllocCtx := allocCtxOf input palletTypes rateTable surcharges
  match phase1Pick ctx sortedItems with
  | some picked =>
      let alloc : PalletAllocation :=
        { pallet := picked.1, items := picked.2.1.placements
          totalWeightKg := picked.2.2.1
          priceBreakdown := calculatePrice picked.2.2.2 surcharges
          layoutNotes := picked.2.1.layoutNotes }
      { allocations := [alloc], palletCount := 1
        totalGross := toFixed2 (sumGross [alloc]), unallocated := [], warnings := [] }
  | none =>
      if sortedItems.isEmpty then
        { allocations := [], palletCount := 0, totalGross := toFixed2 (sumGross [])
          unallocated := [], warnings := [] }
      else
        let s0 : P2State :=
          { remaining := sortedItems, allocations := [], unallocated := []
            warnings := ["Wszystkie meble nie mieszczą się na jednej palecie"] }
        let sf := phase2Fuel ctx sortedItems.length s0
        { allocations := sf.allocations, palletCount := sf.allocations.length
          totalGross := toFixed2 (sumGross sf.allocations)
          unallocated := sf.unallocated, warnings := sf.warnings }

/-- A Phase-1 success for one pallet: the joint fit succeeds AND a rate for
    the total weight exists. -/
def phase1Success (ctx : AllocCtx) (sortedItems : List FurnitureItem)
    (pallet : PalletType) : Prop :=
  (canAllFitOnOnePallet sortedItems pallet ctx.packagingMarginCm ctx.options).fits = true ∧
  (findRate ctx.rateTable pallet.category (sumWeights sortedItems) ctx.distanceBand).isSome = true

instance (ctx : AllocCtx) (sortedItems : List FurnitureItem) (pallet : PalletType) :
    Decidable (phase1Success ctx sortedItems pallet) := by
  unfold phase1Success; exact inferInstance

/-- All item ids tracked by a Phase-2 state: ids placed on committed
    pallets, ids of unallocated items, and ids still remaining. -/
def stateIds (s : P2State) : List String :=
  (s.allocations.flatMap (fun a => a.items.map (fun pl => pl.item.id)) ++
    s.unallocated.map (fun u => u.item.id)) ++ s.remaining.map (fun it => it.id)

end BinPacking

/-- A 1m × 1m test pallet for the row-centering scenarios. -/
def c8Pallet : PalletType := ⟨"P", none, 1, 1, 215, 500, .STANDARD⟩

/-- Two distinct-id items that pack into two Y-separated rows. -/
def c8Items : List FurnitureItem :=
  [⟨"a", "A", 50, 50, 50, 10⟩, ⟨"b", "B", 50, 50, 50, 10⟩]

/-- The same two items but with a duplicated id, on which the id-keyed
    position map collapses the two rows onto one position. -/
def c8DupItems : List FurnitureItem :=
  [⟨"a", "A", 50, 50, 50, 10⟩, ⟨"a", "B", 50, 50, 50, 10⟩]

/- ===== Specification-side definitions for the orientation fitter ===== -/

/-- The fixed orientation order of the specification's table. -/
def orientationOrder : List ItemOrientation :=
  [.normal, .rotated, .tiltedOnSide, .tiltedOnSideRotated, .tiltedOnEnd, .tiltedOnEndRotated]

/-- The specification's orientation table: footprint-length,
    footprint-width and resulting height for each orientation. -/
def specFootprint (o : ItemOrientation) (L W H : ℚ) : ℚ × ℚ × ℚ :=
  match o with
  | .normal => (L, W, H)
  | .rotated => (W, L, H)
  | .tiltedOnSide => (L, H, W)
  | .tiltedOnSideRotated => (H, L, W)
  | .tiltedOnEnd => (W, H, L)
  | .tiltedOnEndRotated => (H, W, L)

/-- The specification's qualification test for one orientation: the margin
    is added to both footprint dimensions and never to the height. -/
def specQualifies (L W H pL pW mH m : ℚ) (o : ItemOrientation) : Prop :=
  (specFootprint o L W H).1 + m ≤ pL ∧
  (specFootprint o L W H).2.1 + m ≤ pW ∧
  (specFootprint o L W H).2.2 ≤ mH

instance (L W H pL pW mH m : ℚ) (o : ItemOrientation) :
    Decidable (specQualifies L W H pL pW mH m o) := by
  unfold specQualifies; exact inferInstance

/-- A tiny concrete Phase-2 context for the C4 witness. -/
def phase2WitnessCtx : BinPacking.AllocCtx :=
  ⟨[], .LE_100, ⟨false, false⟩, 0, ⟨fun _ => none⟩,
    { fuelPercent := 0, roadPercent := 0, vatPercent := 0, minimumNetPrice := 0
      validFrom := "", validTo := "" }⟩

/-- A tiny concrete Phase-2 state for the C4 witness. -/
def phase2WitnessState : BinPacking.P2State :=
  ⟨[{ id := "x", name := "X", lengthCm := 50, widthCm := 50, heightCm := 50,
      weightKg := 10 }], [], [], []⟩

/-- A rate table with a HALF tier capped at 100 kg (rate 10) and a
    STANDARD tier up to 1000 kg (rate 50); used by the C3 counterexample. -/
def c3RateTable : RateTableConfig :=
  ⟨fun c => match c with
    | .HALF => some ⟨[⟨100, fun _ => some 10⟩]⟩
    | .STANDARD => some ⟨[⟨1000, fun _ => some 50⟩]⟩
    | _ => none⟩

/-- A HALF-category pallet: cheapest by approximate rate, but with no
    applicable rate at the item's 200 kg total weight. -/
def c3PalletHalf : PalletType := ⟨"P1", none, 1, 1, 215, 1500, .HALF⟩

/-- A STANDARD-category pallet with an applicable rate at 200 kg. -/
def c3PalletStd : PalletType := ⟨"P2", none, 1, 1, 215, 1500, .STANDARD⟩

def c3Surcharges : SurchargesConfig := ⟨10, 5, 23, 0, "", ""⟩

def c3Item : FurnitureItem := ⟨"x", "X", 50, 50, 50, 200⟩

def c3Input : MultiItemInput := ⟨[c3Item], .LE_100, ⟨false, false⟩, 0⟩

/- ===== Packer geometry predicates and invariant lemmas ===== -/

namespace Packer

/-- The rectangle a best node occupies. -/
def nodeRect (n : BestNode) : Rect := ⟨n.x, n.y, n.width, n.height⟩

/-- The rectangle a placed item occupies. -/
def rectOfPacked (q : PackedItem) : Rect := ⟨q.x, q.y, q.width, q.height⟩

/-- Axis-aligned non-overlap of two rectangles, exactly as the
    specification states it. -/
def rectDisjoint (a b : Rect) : Prop :=
  a.x + a.w ≤ b.x ∨ b.x + b.w ≤ a.x ∨ a.y + a.h ≤ b.y ∨ b.y + b.h ≤ a.y

instance (a b : Rect) : Decidable (rectDisjoint a b) := by
  unfold rectDisjoint; exact inferInstance

/-- The specification's non-overlap condition on two placed items. -/
def packedNoOverlap (a b : PackedItem) : Prop :=
  a.x + a.width ≤ b.x ∨ b.x + b.width ≤ a.x ∨
    a.y + a.height ≤ b.y ∨ b.y + b.height ≤ a.y

instance (a b : PackedItem) : Decidable (packedNoOverlap a b) := by
  unfold packedNoOverlap; exact inferInstance

lemma rectDisjoint_symm {a b : Rect} (h : rectDisjoint a b) : rectDisjoint b a := by
  unfold rectDisjoint at h ⊢; tauto

lemma not_intersects_iff {n r : Rect} : ¬ intersects n r ↔ rectDisjoint n r := by
  unfold intersects rectDisjoint
  simp only [not_and_or, not_lt, gt_iff_lt]
  tauto

lemma isContained_refl (a : Rect) : isContained a a :=
  ⟨le_refl _, le_refl _, le_refl _, le_refl _⟩

lemma isContained_trans {a b c : Rect} (h1 : isContained a b) (h2 : isContained b c) :
    isContained a c := by
  obtain ⟨x1, y1, w1, h1'⟩ := h1
  obtain ⟨x2, y2, w2, h2'⟩ := h2
  exact ⟨le_trans x2 x1, le_trans y2 y1, le_trans w1 w2, le_trans h1' h2'⟩

lemma rectDisjoint_of_contained {g f q : Rect} (hc : isContained g f)
    (hd : rectDisjoint q f) : rectDisjoint q g := by
  obtain ⟨hx, hy, hw, hh⟩ := hc
  rcases hd with h | h | h | h
  · exact Or.inl (by linarith)
  · exact Or.inr (Or.inl (by linarith))
  · exact Or.inr (Or.inr (Or.inl (by linarith)))
  · exact Or.inr (Or.inr (Or.inr (by linarith)))

lemma splitOne_mem {u f g : Rect} (hg : g ∈ splitOne u f) :
    isContained g f ∧ rectDisjoint u g := by
  unfold splitOne at hg
  by_cases hint : intersects u f
  · rw [if_pos hint] at hg
    obtain ⟨hi1, hi2, hi3, hi4⟩ := hint
    rcases List.mem_append.1 hg with hA | hB
    · by_cases hcx : u.x < f.x + f.w ∧ u.x + u.w > f.x
      · rw [if_pos hcx] at hA
        rcases List.mem_append.1 hA with h1 | h2
        · by_cases hab : u.y > f.y ∧ u.y < f.y + f.h
          · rw [if_pos hab] at h1
            have hgeq := List.mem_singleton.1 h1
            subst hgeq
            refine ⟨⟨le_refl _, le_refl _, le_refl _, ?_⟩, ?_⟩
            · dsimp only; linarith [hab.2]
            · refine Or.inr (Or.inr (Or.inr ?_))
              dsimp only; linarith
          · rw [if_neg hab] at h1
            exact absurd h1 (List.not_mem_nil _)
        · by_cases hbe : u.y + u.h < f.y + f.h
          · rw [if_pos hbe] at h2
            have hgeq := List.mem_singleton.1 h2
            subst hgeq
            refine ⟨⟨le_refl _, ?_, le_refl _, ?_⟩, ?_⟩
            · dsimp only; linarith
            · dsimp only; linarith
            · refine Or.inr (Or.inr (Or.inl ?_))
              dsimp only; linarith
          · rw [if_neg hbe] at h2
            exact absurd h2 (List.not_mem_nil _)
      · rw [if_neg hcx] at hA
        exact absurd hA (List.not_mem_nil _)
    · by_cases hcy : u.y < f.y + f.h ∧ u.y + u.h > f.y
      · rw [if_pos hcy] at hB
        rcases List.mem_append.1 hB with h1 | h2
        · by_cases hle : u.x > f.x ∧ u.x < f.x + f.w
          · rw [if_pos hle] at h1
            have hgeq := List.mem_singleton.1 h1
            subst hgeq
            refine ⟨⟨le_refl _, le_refl _, ?_, le_refl _⟩, ?_⟩
            · dsimp only; linarith [hle.2]
            · refine Or.inr (Or.inl ?_)
              dsimp only; linarith
          · rw [if_neg hle] at h1
            exact absurd h1 (List.not_mem_nil _)
        · by_cases hri : u.x + u.w < f.x + f.w
          · rw [if_pos hri] at h2
            have hgeq := List.mem_singleton.1 h2
            subst hgeq
            refine ⟨⟨?_, le_refl _, ?_, le_refl _⟩, ?_⟩
            · dsimp only; linarith
            · dsimp only; linarith
            · refine Or.inl ?_
              dsimp only; linarith
          · rw [if_neg hri] at h2
            exact absurd h2 (List.not_mem_nil _)
      · rw [if_neg hcy] at hB
        exact absurd hB (List.not_mem_nil _)
  · rw [if_neg hint] at hg
    have hgeq := List.mem_singleton.1 hg
    subst hgeq
    exact ⟨isContained_refl _, not_intersects_iff.1 hint⟩

lemma pruneAux_subset : ∀ (rest kept : List Rect) (g : Rect),
    g ∈ pruneAux kept rest → g ∈ kept ∨ g ∈ rest := by
  intro rest
  induction rest with
  | nil => intro kept g hg; exact Or.inl hg
  | cons r rs ih =>
      intro kept g hg
      unfold pruneAux at hg
      by_cases hany : (kept ++ rs).any (fun b => decide (isContained r b)) = true
      · rw [if_pos hany] at hg
        rcases ih kept g hg with h | h
        · exact Or.inl h
        · exact Or.inr (List.mem_cons_of_mem _ h)
      · rw [if_neg hany] at hg
        rcases ih (kept ++ [r]) g hg with h | h
        · rcases List.mem_append.1 h with h2 | h2
          · exact Or.inl h2
          · have hgr := List.mem_singleton.1 h2
            exact Or.inr (hgr ▸ List.mem_cons_self r rs)
        · exact Or.inr (List.mem_cons_of_mem _ h)

lemma splitFreeRects_mem {u : Rect} {frs : List Rect} {g : Rect}
    (hg : g ∈ splitFreeRects u frs) :
    ∃ f ∈ frs, isContained g f ∧ rectDisjoint u g := by
  unfold splitFreeRects pruneFreeRects at hg
  rcases pruneAux_subset _ _ _ hg with h | h
  · exact absurd h (List.not_mem_nil _)
  · have h2 := (List.mem_filter.1 h).1
    obtain ⟨f, hf, hmem⟩ := List.mem_flatMap.1 h2
    exact ⟨f, hf, splitOne_mem hmem⟩

lemma tryPlace_out {f : Rect} {pw ph : ℚ} {rot : Bool}
    {cur : Option (BestNode × ℚ × ℚ)} {out : BestNode × ℚ × ℚ}
    (h : tryPlace f pw ph rot cur = some out) :
    cur = some out ∨
      (out.1.x = f.x ∧ out.1.y = f.y ∧ out.1.width ≤ f.w ∧ out.1.height ≤ f.h) := by
  unfold tryPlace at h
  by_cases hc : f.w ≥ pw ∧ f.h ≥ ph
  · rw [if_pos hc] at h
    cases cur with
    | none =>
        cases h
        exact Or.inr ⟨rfl, rfl, hc.1, hc.2⟩
    | some b =>
        obtain ⟨bn, bs, bl⟩ := b
        dsimp only at h
        by_cases hbetter : min |f.w - pw| |f.h - ph| < bs ∨
            (min |f.w - pw| |f.h - ph| = bs ∧ max |f.w - pw| |f.h - ph| < bl)
        · rw [if_pos hbetter] at h
          cases h
          exact Or.inr ⟨rfl, rfl, hc.1, hc.2⟩
        · rw [if_neg hbetter] at h
          exact Or.inl h
  · rw [if_neg hc] at h
    exact Or.inl h

lemma foldl_best_from (w h : ℚ) :
    ∀ (frs : List Rect) (cur : Option (BestNode × ℚ × ℚ)) (out : BestNode × ℚ × ℚ),
      frs.foldl (fun cur f => tryPlace f h w true (tryPlace f w h false cur)) cur = some out →
      cur = some out ∨
        ∃ f ∈ frs, out.1.x = f.x ∧ out.1.y = f.y ∧ out.1.width ≤ f.w ∧ out.1.height ≤ f.h := by
  intro frs
  induction frs with
  | nil => intro cur out h; exact Or.inl h
  | cons f fs ih =>
      intro cur out h
      rcases ih _ _ h with hstep | ⟨f2, hf2, hp⟩
      · rcases tryPlace_out hstep with hinner | hp
        · rcases tryPlace_out hinner with hcur | hp
          · exact Or.inl hcur
          · exact Or.inr ⟨f, List.mem_cons_self _ _, hp⟩
        · exact Or.inr ⟨f, List.mem_cons_self _ _, hp⟩
      · exact Or.inr ⟨f2, List.mem_cons_of_mem _ hf2, hp⟩

lemma findBestNode_from {w h : ℚ} {frs : List Rect} {n : BestNode}
    (hn : findBestNode w h frs = some n) :
    ∃ f ∈ frs, n.x = f.x ∧ n.y = f.y ∧ n.width ≤ f.w ∧ n.height ≤ f.h := by
  unfold findBestNode at hn
  cases hfold : frs.foldl (fun cur f => tryPlace f h w true (tryPlace f w h false cur)) none with
  | none => rw [hfold] at hn; exact absurd hn (by simp)
  | some out =>
      rw [hfold] at hn
      have hout : out.1 = n := by
        simpa using hn
      rcases foldl_best_from w h frs none out hfold with h0 | ⟨f, hf, hp⟩
      · exact absurd h0 (by simp)
      · rw [hout] at hp
        exact ⟨f, hf, hp⟩

lemma nodeRect_contained {n : BestNode} {f : Rect}
    (hp : n.x = f.x ∧ n.y = f.y ∧ n.width ≤ f.w ∧ n.height ≤ f.h) :
    isContained (nodeRect n) f := by
  obtain ⟨hx, hy, hw, hh⟩ := hp
  exact ⟨le_of_eq hx.symm, le_of_eq hy.symm, by dsimp only [nodeRect]; linarith,
    by dsimp only [nodeRect]; linarith⟩

lemma packLoop_avoid :
    ∀ (its : List PackItem) (frs : List Rect) (ps : List PackedItem) (r : Rect),
      packLoop its frs = some ps →
      (∀ f ∈ frs, rectDisjoint r f) →
      ∀ q ∈ ps, rectDisjoint r (rectOfPacked q) := by
  intro its
  induction its with
  | nil =>
      intro frs ps r h hall q hq
      cases h
      exact absurd hq (List.not_mem_nil _)
  | cons it rest ih =>
      intro frs ps r h hall q hq
      unfold packLoop at h
      cases hn : findBestNode it.w it.h frs with
      | none => rw [hn] at h; exact absurd h (by simp)
      | some n =>
          rw [hn] at h
          obtain ⟨ps2, hps2, rfl⟩ := Option.map_eq_some'.1 h
          rcases List.mem_cons.1 hq with rfl | hq2
          · obtain ⟨f, hf, hp⟩ := findBestNode_from hn
            exact rectDisjoint_of_contained (nodeRect_contained hp) (hall f hf)
          · refine ih _ _ r hps2 ?_ q hq2
            intro f2 hf2
            obtain ⟨f, hf, hcont, _⟩ := splitFreeRects_mem hf2
            exact rectDisjoint_of_contained hcont (hall f hf)

lemma packLoop_pairwise :
    ∀ (its : List PackItem) (frs : List Rect) (ps : List PackedItem),
      packLoop its frs = some ps →
      ps.Pairwise (fun a b => rectDisjoint (rectOfPacked a) (rectOfPacked b)) := by
  intro its
  induction its with
  | nil => intro frs ps h; cases h; exact List.Pairwise.nil
  | cons it rest ih =>
      intro frs ps h
      unfold packLoop at h
      cases hn : findBestNode it.w it.h frs with
      | none => rw [hn] at h; exact absurd h (by simp)
      | some n =>
          rw [hn] at h
          obtain ⟨ps2, hps2, rfl⟩ := Option.map_eq_some'.1 h
          refine List.Pairwise.cons ?_ (ih _ _ hps2)
          intro q hq
          refine packLoop_avoid rest _ ps2 (nodeRect n) hps2 ?_ q hq
          intro f2 hf2
          obtain ⟨f, hf, _, hdisj⟩ := splitFreeRects_mem hf2
          exact hdisj

lemma packLoop_contained :
    ∀ (its : List PackItem) (frs : List Rect) (ps : List PackedItem) (S : Rect),
      (∀ f ∈ frs, isContained f S) →
      packLoop its frs = some ps →
      ∀ q ∈ ps, isContained (rectOfPacked q) S := by
  intro its
  induction its with
  | nil =>
      intro frs ps S _ h q hq
      cases h
      exact absurd hq (List.not_mem_nil _)
  | cons it rest ih =>
      intro frs ps S hall h q hq
      unfold packLoop at h
      cases hn : findBestNode it.w it.h frs with
      | none => rw [hn] at h; exact absurd h (by simp)
      | some n =>
          rw [hn] at h
          obtain ⟨ps2, hps2, rfl⟩ := Option.map_eq_some'.1 h
          rcases List.mem_cons.1 hq with rfl | hq2
          · obtain ⟨f, hf, hp⟩ := findBestNode_from hn
            exact isContained_trans (nodeRect_contained hp) (hall f hf)
          · refine ih _ _ S ?_ hps2 q hq2
            intro f2 hf2
            obtain ⟨f, hf, hcont, _⟩ := splitFreeRects_mem hf2
            exact isContained_trans hcont (hall f hf)

lemma packLoop_ids :
    ∀ (its : List PackItem) (frs : List Rect) (ps : List PackedItem),
      packLoop its frs = some ps →
      ps.map (fun q => q.id) = its.map (fun it => it.id) := by
  intro its
  induction its with
  | nil => intro frs ps h; cases h; rfl
  | cons it rest ih =>
      intro frs ps h
      unfold packLoop at h
      cases hn : findBestNode it.w it.h frs with
      | none => rw [hn] at h; exact absurd h (by simp)
      | some n =>
          rw [hn] at h
          obtain ⟨ps2, hps2, rfl⟩ := Option.map_eq_some'.1 h
          simp only [List.map_cons]
          rw [ih _ _ hps2]

/-- Every placement of a successful `pack` lies inside the surface and its
    ids are the sorted input ids. -/
lemma pack_contained {W H : ℚ} {items : List PackItem} {ps : List PackedItem}
    (h : pack W H items = some ps) :
    ∀ q ∈ ps, isContained (rectOfPacked q) ⟨0, 0, W, H⟩ := by
  unfold pack at h
  refine packLoop_contained _ _ _ _ ?_ h
  intro f hf
  have hfe := List.mem_singleton.1 hf
  subst hfe
  exact isContained_refl _

lemma pack_ids {W H : ℚ} {items : List PackItem} {ps : List PackedItem}
    (h : pack W H items = some ps) :
    ps.map (fun q => q.id) = (sortItems items).map (fun it => it.id) :=
  packLoop_ids _ _ _ h

end Packer

/- ===== Helper lemmas: orientation fitter ===== -/

lemma check3DFit_eq_spec (L W H pL pW mH m : ℚ) :
    check3DFit L W H pL pW mH m =
      match orientationOrder.find? (fun o => decide (specQualifies L W H pL pW mH m o)) with
      | some o => { fits := true, rotated := o ≠ ItemOrientation.normal, orientation := o }
      | none => { fits := false, rotated := false, orientation := .normal } := by
  have hmap :
      ([(L + m, W + m, H, ItemOrientation.normal),
        (W + m, L + m, H, ItemOrientation.rotated),
        (L + m, H + m, W, ItemOrientation.tiltedOnSide),
        (H + m, L + m, W, ItemOrientation.tiltedOnSideRotated),
        (W + m, H + m, L, ItemOrientation.tiltedOnEnd),
        (H + m, W + m, L, ItemOrientation.tiltedOnEndRotated)] :
          List (ℚ × ℚ × ℚ × ItemOrientation)) =
        orientationOrder.map (fun o =>
          ((specFootprint o L W H).1 + m, (specFootprint o L W H).2.1 + m,
            (specFootprint o L W H).2.2, o)) := by
    simp [orientationOrder, specFootprint]
  simp only [check3DFit]
  rw [hmap, List.find?_map]
  have hcomp :
      ((fun t : ℚ × ℚ × ℚ × ItemOrientation =>
          decide (t.1 ≤ pL ∧ t.2.1 ≤ pW ∧ t.2.2.1 ≤ mH)) ∘
        (fun o => ((specFootprint o L W H).1 + m, (specFootprint o L W H).2.1 + m,
            (specFootprint o L W H).2.2, o))) =
        (fun o => decide (specQualifies L W H pL pW mH m o)) := by
    funext o
    exact decide_eq_decide.2 (by cases o <;> exact Iff.rfl)
  rw [hcomp]
  cases orientationOrder.find? (fun o => decide (specQualifies L W H pL pW mH m o)) with
  | none => rfl
  | some o => cases o <;> rfl

lemma check3DFit_fits_true_iff (L W H pL pW mH m : ℚ) :
    (check3DFit L W H pL pW mH m).fits = true ↔
      ∃ o ∈ orientationOrder, specQualifies L W H pL pW mH m o := by
  rw [check3DFit_eq_spec]
  cases hfo : orientationOrder.find? (fun o => decide (specQualifies L W H pL pW mH m o)) with
  | some o =>
      constructor
      · intro _
        have hq := List.find?_some hfo
        exact ⟨o, List.mem_of_find?_eq_some hfo, of_decide_eq_true hq⟩
      · intro _; rfl
  | none =>
      rw [List.find?_eq_none] at hfo
      simp only [Bool.false_eq_true, false_iff]
      rintro ⟨o, ho, hq⟩
      exact absurd (decide_eq_true hq) (hfo o ho)

/- ===== Helper lemmas: single-item optimizer ===== -/

lemma optimize_rejected_mem (input : CalculationInput) (cfg : PalletTypesConfig)
    (rt : RateTableConfig) (sc : SurchargesConfig) (pallet : PalletType)
    (hmem : pallet ∈ cfg.pallets)
    (hne : Optimizer.palletRejectionReasons input rt pallet ≠ []) :
    (⟨pallet, Optimizer.palletRejectionReasons input rt pallet⟩ : RejectedResult) ∈
      (Optimizer.optimize input cfg rt sc).rejected := by
  simp only [Optimizer.optimize, List.mem_filterMap]
  refine ⟨pallet, hmem, ?_⟩
  rw [if_neg (by simpa [List.isEmpty_iff] using hne)]

lemma weight_limit_mem_reasons (input : CalculationInput) (rt : RateTableConfig)
    (pallet : PalletType)
    (hw : input.weightKg >
      (getEffectiveLimits input.options pallet.maxHeightCm pallet.maxWeightKg).maxWeightKg) :
    RejectionReason.WEIGHT_LIMIT ∈ Optimizer.palletRejectionReasons input rt pallet := by
  unfold Optimizer.palletRejectionReasons
  refine List.mem_append_left _ (List.mem_append_right _ ?_)
  rw [if_pos hw]
  exact List.mem_singleton_self _

/- ===== Claim theorems ===== -/

/-- C1: for every surface size and every item list on which `Packer.pack`
    succeeds (returns non-null), every pair of distinct placed rectangles
    is axis-aligned non-overlapping:
    x1+w1 ≤ x2 ∨ x2+w2 ≤ x1 ∨ y1+h1 ≤ y2 ∨ y2+h2 ≤ y1. -/
theorem pack_pairwise_no_overlap (W H : ℚ) (items : List Packer.PackItem)
    (ps : List Packer.PackedItem) (h : Packer.pack W H items = some ps) :
    ps.Pairwise Packer.packedNoOverlap :=
  Packer.packLoop_pairwise _ _ _ h

/-- Witness for C1 at a concrete input: two 50×50 items packed on a
    100×100 surface land at (0,0) and (0,50) and do not overlap. -/
theorem pack_pairwise_no_overlap_witness :
    List.Pairwise Packer.packedNoOverlap
      [⟨"a", 0, 0, 50, 50, false⟩, ⟨"b", 0, 50, 50, 50, false⟩] :=
  pack_pairwise_no_overlap 100 100 [⟨"a", 50, 50⟩, ⟨"b", 50, 50⟩]
    [⟨"a", 0, 0, 50, 50, false⟩, ⟨"b", 0, 50, 50, 50, false⟩] (by decide)

/-- C2: for all dimensions, pallet footprint, height budget and margin,
    `check3DFit` tries the six orientations in the fixed order
    normal, rotated, tiltedOnSide, tiltedOnSideRotated, tiltedOnEnd,
    tiltedOnEndRotated — footprints L×W, W×L, L×H, H×L, W×H, H×W with
    heights H, H, W, W, L, L, the margin added to both footprint
    dimensions and never to the height — and returns fits=true with the
    first qualifying orientation, or fits=false with orientation `normal`
    when none qualifies. (Proved for all rational inputs, hence in
    particular for the claimed non-negative ones.) -/
theorem check3DFit_tries_orientations_in_order (L W H pL pW mH m : ℚ) :
    check3DFit L W H pL pW mH m =
      match orientationOrder.find? (fun o => decide (specQualifies L W H pL pW mH m o)) with
      | some o => { fits := true, rotated := o ≠ ItemOrientation.normal, orientation := o }
      | none => { fits := false, rotated := false, orientation := .normal } :=
  check3DFit_eq_spec L W H pL pW mH m

/-- C6: shrinking the packaging margin never breaks a fit: if `check3DFit`
    reports fits=true with margin m, it also reports fits=true with any
    margin m2 < m, all else equal. -/
theorem check3DFit_margin_monotone (L W H pL pW mH m m2 : ℚ) (hlt : m2 < m)
    (hfit : (check3DFit L W H pL pW mH m).fits = true) :
    (check3DFit L W H pL pW mH m2).fits = true := by
  rw [check3DFit_fits_true_iff] at hfit ⊢
  obtain ⟨o, ho, hq⟩ := hfit
  refine ⟨o, ho, ?_, ?_, hq.2.2⟩
  · linarith [hq.1]
  · linarith [hq.2.1]

/-- Witness for C6 at a concrete input: item 100×80×60 fits a 120×100
    pallet with 200 height budget at margin 10, hence also at margin 5. -/
theorem check3DFit_margin_monotone_witness :
    (5 : ℚ) < 10 ∧ (check3DFit 100 80 60 120 100 200 5).fits = true :=
  ⟨by norm_num,
   check3DFit_margin_monotone 100 80 60 120 100 200 10 5 (by norm_num) (by decide)⟩

/-- C5: `getEffectiveLimits` yields maxHeightCm = min(220, palletMaxHeightCm)
    further clamped to 180 under van35, and maxWeightKg =
    min(1500, palletMaxWeightKg) further clamped to 400 under van35, else
    to 750 under lift (van35 taking precedence); consequently, in
    `optimize`, a 450 kg item under van35 against a pallet whose own limit
    is 1500 kg is rejected with reason WEIGHT_LIMIT. -/
theorem getEffectiveLimits_clamps_and_van35_rejects :
    (∀ (options : TransportOptions) (pH pW : ℚ),
      getEffectiveLimits options pH pW =
        { maxHeightCm := if options.van35 then min 180 (min 220 pH) else min 220 pH
          maxWeightKg :=
            if options.van35 then min 400 (min 1500 pW)
            else if options.lift then min 750 (min 1500 pW)
            else min 1500 pW }) ∧
    (∀ (input : CalculationInput) (cfg : PalletTypesConfig) (rt : RateTableConfig)
       (sc : SurchargesConfig) (pallet : PalletType),
      pallet ∈ cfg.pallets → input.weightKg = 450 → input.options.van35 = true →
      pallet.maxWeightKg = 1500 →
      ∃ e ∈ (Optimizer.optimize input cfg rt sc).rejected,
        e.pallet = pallet ∧ RejectionReason.WEIGHT_LIMIT ∈ e.reasons) := by
  constructor
  · intro options pH pW
    unfold getEffectiveLimits
    cases hv : options.van35 <;> cases hl : options.lift <;> simp [hv, hl]
  · intro input cfg rt sc pallet hmem hw hv hpw
    have hlim : (getEffectiveLimits input.options pallet.maxHeightCm pallet.maxWeightKg).maxWeightKg = 400 := by
      unfold getEffectiveLimits
      rw [hv, hpw]
      simp
      norm_num
    have hover : input.weightKg >
        (getEffectiveLimits input.options pallet.maxHeightCm pallet.maxWeightKg).maxWeightKg := by
      rw [hlim, hw]; norm_num
    have hmemr := weight_limit_mem_reasons input rt pallet hover
    have hne : Optimizer.palletRejectionReasons input rt pallet ≠ [] := by
      intro hnil; rw [hnil] at hmemr; exact List.not_mem_nil _ hmemr
    exact ⟨_, optimize_rejected_mem input cfg rt sc pallet hmem hne, rfl, hmemr⟩

/-- Witness for C5 at a concrete input: a 450 kg item with van35 against a
    single pallet with nominal limit 1500 kg is rejected with WEIGHT_LIMIT. -/
theorem getEffectiveLimits_clamps_and_van35_rejects_witness :
    ∃ e ∈ (Optimizer.optimize
        { lengthCm := 50, widthCm := 50, heightCm := 50, weightKg := 450
          distanceBand := .LE_100, options := ⟨false, true⟩, packagingMarginCm := 0 }
        ⟨[{ id := "P", displayName := none, lengthM := 1, widthM := 1
            maxHeightCm := 215, maxWeightKg := 1500, category := .STANDARD }]⟩
        ⟨fun _ => none⟩
        { fuelPercent := 0, roadPercent := 0, vatPercent := 0, minimumNetPrice := 0
          validFrom := "", validTo := "" }).rejected,
      e.pallet = { id := "P", displayName := none, lengthM := 1, widthM := 1
                   maxHeightCm := 215, maxWeightKg := 1500, category := .STANDARD } ∧
      RejectionReason.WEIGHT_LIMIT ∈ e.reasons :=
  getEffectiveLimits_clamps_and_van35_rejects.2
    _ _ _ _ _ (by decide) (by decide) (by decide) (by decide)

/-- C7: for every pallet of the catalogue, the rejection-reason list built
    by `optimize` contains OVERHANG iff the 3D fit fails, WEIGHT_LIMIT iff
    the weight exceeds the effective limit, NO_RATE_MATCH iff `findRate`
    finds no rate (all three checks run for every pallet, so reasons can
    co-occur), and a category absent from the rate table puts the pallet on
    the rejected list with NO_RATE_MATCH instead of raising an error. -/
theorem optimize_rejection_reasons_iff (input : CalculationInput)
    (cfg : PalletTypesConfig) (rt : RateTableConfig) (sc : SurchargesConfig)
    (pallet : PalletType) (hmem : pallet ∈ cfg.pallets) :
    (RejectionReason.OVERHANG ∈ Optimizer.palletRejectionReasons input rt pallet ↔
      (Optimizer.palletFitResult input pallet).fits = false) ∧
    (RejectionReason.WEIGHT_LIMIT ∈ Optimizer.palletRejectionReasons input rt pallet ↔
      input.weightKg >
        (getEffectiveLimits input.options pallet.maxHeightCm pallet.maxWeightKg).maxWeightKg) ∧
    (RejectionReason.NO_RATE_MATCH ∈ Optimizer.palletRejectionReasons input rt pallet ↔
      findRate rt pallet.category input.weightKg input.distanceBand = none) ∧
    (rt.categories pallet.category = none →
      ∃ e ∈ (Optimizer.optimize input cfg rt sc).rejected,
        e.pallet = pallet ∧ RejectionReason.NO_RATE_MATCH ∈ e.reasons) := by
  have hiff : ∀ r : RejectionReason,
      r ∈ Optimizer.palletRejectionReasons input rt pallet ↔
        (r = .OVERHANG ∧ ¬ (Optimizer.palletFitResult input pallet).fits = true) ∨
        (r = .WEIGHT_LIMIT ∧ input.weightKg >
          (getEffectiveLimits input.options pallet.maxHeightCm pallet.maxWeightKg).maxWeightKg) ∨
        (r = .NO_RATE_MATCH ∧
          findRate rt pallet.category input.weightKg input.distanceBand = none) := by
    intro r
    unfold Optimizer.palletRejectionReasons
    by_cases hfit : (Optimizer.palletFitResult input pallet).fits = true <;>
    by_cases hw : input.weightKg >
        (getEffectiveLimits input.options pallet.maxHeightCm pallet.maxWeightKg).maxWeightKg <;>
    cases hrate : findRate rt pallet.category input.weightKg input.distanceBand <;>
    simp [hfit, hw, hrate]
  refine ⟨?_, ?_, ?_, ?_⟩
  · rw [hiff]; simp [Bool.not_eq_true]
  · rw [hiff]; simp
  · rw [hiff]; simp
  · intro hcat
    have hrate : findRate rt pallet.category input.weightKg input.distanceBand = none := by
      unfold findRate; rw [hcat]
    have hmemr : RejectionReason.NO_RATE_MATCH ∈
        Optimizer.palletRejectionReasons input rt pallet := by
      rw [hiff]; exact Or.inr (Or.inr ⟨rfl, hrate⟩)
    have hne : Optimizer.palletRejectionReasons input rt pallet ≠ [] := by
      intro hnil; rw [hnil] at hmemr; exact List.not_mem_nil _ hmemr
    exact ⟨_, optimize_rejected_mem input cfg rt sc pallet hmem hne, rfl, hmemr⟩

/-- Witness for C7 at a concrete input: a heavy, oversized item against a
    small pallet of a category absent from the rate table carries all
    three reasons at once. -/
theorem optimize_rejection_reasons_iff_witness :
    ((RejectionReason.OVERHANG ∈ Optimizer.palletRejectionReasons
        { lengthCm := 300, widthCm := 300, heightCm := 300, weightKg := 2000
          distanceBand := .LE_100, options := ⟨false, false⟩, packagingMarginCm := 0 }
        ⟨fun _ => none⟩
        { id := "P", displayName := none, lengthM := 1, widthM := 1
          maxHeightCm := 215, maxWeightKg := 500, category := .HALF } ↔
      (Optimizer.palletFitResult
        { lengthCm := 300, widthCm := 300, heightCm := 300, weightKg := 2000
          distanceBand := .LE_100, options := ⟨false, false⟩, packagingMarginCm := 0 }
        { id := "P", displayName := none, lengthM := 1, widthM := 1
          maxHeightCm := 215, maxWeightKg := 500, category := .HALF }).fits = false)) :=
  (optimize_rejection_reasons_iff
    { lengthCm := 300, widthCm := 300, heightCm := 300, weightKg := 2000
      distanceBand := .LE_100, options := ⟨false, false⟩, packagingMarginCm := 0 }
    ⟨[{ id := "P", displayName := none, lengthM := 1, widthM := 1
        maxHeightCm := 215, maxWeightKg := 500, category := .HALF }]⟩
    ⟨fun _ => none⟩
    { fuelPercent := 0, roadPercent := 0, vatPercent := 0, minimumNetPrice := 0
      validFrom := "", validTo := "" }
    { id := "P", displayName := none, lengthM := 1, widthM := 1
      maxHeightCm := 215, maxWeightKg := 500, category := .HALF }
    (by decide)).1

/- ===== Helper lemmas: Phase-2 structure ===== -/

namespace BinPacking

lemma countList_pos {n c : ℕ} (hc : c ∈ countList n) : 1 ≤ c := by
  unfold countList at hc
  rw [List.mem_reverse, List.mem_range'] at hc
  obtain ⟨i, _, rfl⟩ := hc
  omega

lemma tryCount_items {ctx : AllocCtx} {remaining : List FurnitureItem}
    {pallet : PalletType} {c : ℕ} {out : PalletAllocation × List FurnitureItem × ℚ}
    (h : tryCount ctx remaining pallet c = some out) :
    out.2.1 = remaining.take c ∧
      (canAllFitOnOnePallet (remaining.take c) pallet ctx.packagingMarginCm ctx.options).fits = true ∧
      out.1.items = (canAllFitOnOnePallet (remaining.take c) pallet ctx.packagingMarginCm ctx.options).placements := by
  unfold tryCount at h
  by_cases hfit : (canAllFitOnOnePallet (remaining.take c) pallet ctx.packagingMarginCm ctx.options).fits = true
  · rw [if_pos hfit] at h
    dsimp only at h
    split at h
    · cases h
      exact ⟨rfl, hfit, rfl⟩
    · exact absurd h (by simp)
  · rw [if_neg hfit] at h
    exact absurd h (by simp)

lemma tryPallet_shape {ctx : AllocCtx} {remaining : List FurnitureItem}
    {pallet : PalletType} {out : PalletAllocation × List FurnitureItem × ℚ}
    (h : tryPallet ctx remaining pallet = some out) :
    ∃ c ∈ countList remaining.length, tryCount ctx remaining pallet c = some out :=
  List.exists_of_findSome?_eq_some h

lemma pickBest_shape {ctx : AllocCtx} {remaining : List FurnitureItem}
    {out : PalletAllocation × List FurnitureItem × ℚ}
    (h : pickBest ctx remaining = some out) :
    ∃ pallet ∈ ctx.sortedPallets, tryPallet ctx remaining pallet = some out := by
  unfold pickBest at h
  suffices haux : ∀ (pallets : List PalletType) (init : Option (PalletAllocation × List FurnitureItem × ℚ)),
      pallets.foldl (fun best pallet =>
        match tryPallet ctx remaining pallet with
        | none => best
        | some cand =>
            match best with
            | none => some cand
            | some b => if cand.2.2 < b.2.2 then some cand else some b) init = some out →
      init = some out ∨ ∃ pallet ∈ pallets, tryPallet ctx remaining pallet = some out by
    rcases haux ctx.sortedPallets none h with h0 | hfound
    · exact absurd h0 (by simp)
    · exact hfound
  intro pallets
  induction pallets with
  | nil => intro init h2; exact Or.inl h2
  | cons p ps ih =>
      intro init h2
      rcases ih _ h2 with hstep | ⟨p2, hp2, hout⟩
      · dsimp only at hstep
        cases htp : tryPallet ctx remaining p with
        | none => rw [htp] at hstep; exact Or.inl hstep
        | some cand =>
            rw [htp] at hstep
            cases init with
            | none =>
                cases hstep
                exact Or.inr ⟨p, List.mem_cons_self _ _, htp⟩
            | some b =>
                dsimp only at hstep
                by_cases hlt : cand.2.2 < b.2.2
                · rw [if_pos hlt] at hstep
                  cases hstep
                  exact Or.inr ⟨p, List.mem_cons_self _ _, htp⟩
                · rw [if_neg hlt] at hstep
                  exact Or.inl hstep
      · exact Or.inr ⟨p2, List.mem_cons_of_mem _ hp2, hout⟩

/-- One Phase-2 iteration strictly shrinks a non-empty remaining list:
    a committed allocation removes its (at least one) taken items, and the
    no-fit branch shifts off the first item. -/
lemma phase2Step_decreases (ctx : AllocCtx) (s : P2State) (h : s.remaining ≠ []) :
    (phase2Step ctx s).remaining.length < s.remaining.length := by
  obtain ⟨rem, allocs, unall, warns⟩ := s
  cases rem with
  | nil => exact absurd rfl h
  | cons first rest =>
      unfold phase2Step
      dsimp only
      cases hpick : pickBest ctx (first :: rest) with
      | none => simp
      | some cand =>
          dsimp only
          obtain ⟨pallet, _, htp⟩ := pickBest_shape hpick
          obtain ⟨c, hc, htc⟩ := tryPallet_shape htp
          obtain ⟨hitems, _, _⟩ := tryCount_items htc
          have hcpos := countList_pos hc
          have hfirst : first ∈ cand.2.1 := by
            rw [hitems]
            cases c with
            | zero => exact absurd hcpos (by norm_num)
            | succ c2 => exact List.mem_cons_self _ _
          rw [List.length_filter_lt_length_iff_exists]
          refine ⟨first, List.mem_cons_self _ _, ?_⟩
          have helem : List.elem first.id (cand.2.1.map (fun it => it.id)) = true :=
            List.elem_iff.2 (List.mem_map.2 ⟨first, hfirst, rfl⟩)
          show ¬ (!(List.elem first.id (cand.2.1.map (fun it => it.id)))) = true
          rw [helem]
          simp

lemma prepareItems_ok_ids {pL pW aH m : ℚ} :
    ∀ {items : List FurnitureItem} {ps : List PreparedItem},
      prepareItems pL pW aH m items = .ok ps →
      ps.map (fun p => p.id) = items.map (fun it => it.id) ∧
      ∀ p ∈ ps, p.originalItem.id = p.id := by
  intro items
  induction items with
  | nil =>
      intro ps h
      cases h
      exact ⟨rfl, fun p hp => absurd hp (List.not_mem_nil _)⟩
  | cons item rest ih =>
      intro ps h
      unfold prepareItems at h
      dsimp only at h
      cases hfit : (check3DFit item.lengthCm item.widthCm item.heightCm pL pW aH m).fits with
      | false =>
          rw [hfit] at h
          simp at h
      | true =>
          rw [hfit] at h
          rw [if_pos rfl] at h
          cases hrec : prepareItems pL pW aH m rest with
          | error e => rw [hrec] at h; simp at h
          | ok ps2 =>
              rw [hrec] at h
              cases h
              obtain ⟨hids, horig⟩ := ih hrec
              constructor
              · simp only [List.map_cons]
                rw [hids]
              · intro p hp
                rcases List.mem_cons.1 hp with rfl | hp2
                · rfl
                · exact horig p hp2

/-- The shape of a successful joint fit: the prepared items, the packed
    rectangles, and the resulting placements built from them. -/
lemma canAllFit_success_shape {items : List FurnitureItem} {pallet : PalletType}
    {m : ℚ} {opts : TransportOptions}
    (hfits : (canAllFitOnOnePallet items pallet m opts).fits = true) :
    ∃ (preparedItems : List PreparedItem) (packedResult : List Packer.PackedItem),
      prepareItems (pallet.lengthM * 100) (pallet.widthM * 100)
          ((getEffectiveLimits opts pallet.maxHeightCm pallet.maxWeightKg).maxHeightCm -
            PALLET_BASE_HEIGHT_CM) m items = .ok preparedItems ∧
      Packer.pack ((jsRound (pallet.widthM * 100) : ℤ) : ℚ)
          ((jsRound (pallet.lengthM * 100) : ℤ) : ℚ)
          (preparedItems.map (fun p => Packer.PackItem.mk p.id p.w p.h)) =
        some packedResult ∧
      canAllFitOnOnePallet items pallet m opts =
        { fits := true
          placements := buildPlacements ((jsRound (pallet.widthM * 100) : ℤ) : ℚ)
            ((jsRound (pallet.lengthM * 100) : ℤ) : ℚ) preparedItems packedResult
          layoutNotes := [] } := by
  by_cases hw : (items.foldl (fun s it => s + it.weightKg) 0) >
      (getEffectiveLimits opts pallet.maxHeightCm pallet.maxWeightKg).maxWeightKg
  · exfalso
    simp only [canAllFitOnOnePallet, palletDimensionsToCm, if_pos hw] at hfits
    simp at hfits
  · cases hprep : prepareItems (pallet.lengthM * 100) (pallet.widthM * 100)
        ((getEffectiveLimits opts pallet.maxHeightCm pallet.maxWeightKg).maxHeightCm -
          PALLET_BASE_HEIGHT_CM) m items with
    | error e =>
        exfalso
        simp only [canAllFitOnOnePallet, palletDimensionsToCm, if_neg hw, hprep] at hfits
        simp at hfits
    | ok preparedItems =>
        cases hpack : Packer.pack ((jsRound (pallet.widthM * 100) : ℤ) : ℚ)
            ((jsRound (pallet.lengthM * 100) : ℤ) : ℚ)
            (preparedItems.map (fun p => Packer.PackItem.mk p.id p.w p.h)) with
        | none =>
            exfalso
            simp only [canAllFitOnOnePallet, palletDimensionsToCm, if_neg hw, hprep,
              hpack] at hfits
            simp at hfits
        | some packedResult =>
            refine ⟨preparedItems, packedResult, rfl, hpack, ?_⟩
            simp only [canAllFitOnOnePallet, palletDimensionsToCm, if_neg hw, hprep, hpack]

/-- Placement ids of `buildPlacements` are exactly the packed ids, as soon
    as every packed id occurs among the prepared ids. -/
lemma buildPlacements_ids {palletW palletL : ℚ} {preparedItems : List PreparedItem}
    {packedResult : List Packer.PackedItem}
    (hsub : ∀ q ∈ packedResult, q.id ∈ preparedItems.map (fun p => p.id))
    (horig : ∀ p ∈ preparedItems, p.originalItem.id = p.id) :
    (buildPlacements palletW palletL preparedItems packedResult).map
        (fun pl => pl.item.id) =
      packedResult.map (fun q => q.id) := by
  unfold buildPlacements
  rw [List.map_map]
  refine List.map_congr_left ?_
  intro q hq
  simp only [Function.comp_apply]
  have hex : ∃ p ∈ preparedItems, (fun p : PreparedItem => decide (p.id = q.id)) p = true := by
    obtain ⟨p, hp, hpid⟩ := List.mem_map.1 (hsub q hq)
    exact ⟨p, hp, decide_eq_true hpid⟩
  cases hfind : preparedItems.find? (fun p => decide (p.id = q.id)) with
  | none =>
      rw [← List.find?_isSome] at hex
      rw [hfind] at hex
      simp at hex
  | some o =>
      have hdec := List.find?_some hfind
      have hoid : o.id = q.id := of_decide_eq_true hdec
      have ho := List.mem_of_find?_eq_some hfind
      simp only [Option.getD_some]
      rw [horig o ho, hoid]

/-- The item-id multiset of the placements of a successful joint fit is
    exactly that of the input items. -/
lemma canAllFit_placement_ids {items : List FurnitureItem} {pallet : PalletType}
    {m : ℚ} {opts : TransportOptions}
    (hfits : (canAllFitOnOnePallet items pallet m opts).fits = true) :
    ((canAllFitOnOnePallet items pallet m opts).placements.map
        (fun pl => pl.item.id)).Perm
      (items.map (fun it => it.id)) := by
  obtain ⟨preparedItems, packedResult, hprep, hpack, heq⟩ := canAllFit_success_shape hfits
  obtain ⟨hprepids, horig⟩ := prepareItems_ok_ids hprep
  have hpackids := Packer.pack_ids hpack
  have hinputids : (preparedItems.map (fun p => Packer.PackItem.mk p.id p.w p.h)).map
      (fun it => it.id) = preparedItems.map (fun p => p.id) := by
    rw [List.map_map]
    rfl
  have hperm : (packedResult.map (fun q => q.id)).Perm
      (preparedItems.map (fun p => p.id)) := by
    rw [hpackids, ← hinputids]
    exact List.Perm.map _ (List.perm_insertionSort _ _)
  have hsub : ∀ q ∈ packedResult, q.id ∈ preparedItems.map (fun p => p.id) := by
    intro q hq
    exact hperm.mem_iff.1 (List.mem_map.2 ⟨q, hq, rfl⟩)
  rw [heq]
  dsimp only
  rw [buildPlacements_ids hsub horig, ← hprepids]
  exact hperm

lemma phase1Try_eq_none {ctx : AllocCtx} {sortedItems : List FurnitureItem}
    {pallet : PalletType} (hnot : ¬ phase1Success ctx sortedItems pallet) :
    phase1Try ctx sortedItems pallet = none := by
  unfold phase1Try
  by_cases hfit : (canAllFitOnOnePallet sortedItems pallet ctx.packagingMarginCm ctx.options).fits = true
  · rw [if_pos hfit]
    dsimp only
    cases hrate : findRate ctx.rateTable pallet.category (sumWeights sortedItems)
        ctx.distanceBand with
    | some rate =>
        exact absurd ⟨hfit, by rw [hrate]; rfl⟩ hnot
    | none => rfl
  · rw [if_neg hfit]

lemma phase1Try_eq_some {ctx : AllocCtx} {sortedItems : List FurnitureItem}
    {pallet : PalletType} (hs : phase1Success ctx sortedItems pallet) :
    ∃ rate,
      findRate ctx.rateTable pallet.category (sumWeights sortedItems) ctx.distanceBand =
        some rate ∧
      phase1Try ctx sortedItems pallet =
        some (pallet, canAllFitOnOnePallet sortedItems pallet ctx.packagingMarginCm ctx.options,
          sumWeights sortedItems, rate) := by
  obtain ⟨hfit, hsome⟩ := hs
  obtain ⟨rate, hrate⟩ := Option.isSome_iff_exists.1 hsome
  refine ⟨rate, hrate, ?_⟩
  unfold phase1Try
  rw [if_pos hfit]
  dsimp only
  rw [hrate]

lemma findSome?_first {α β : Type} {f : α → Option β} :
    ∀ (pre : List α) {p : α} {post : List α} {v : β},
      (∀ q ∈ pre, f q = none) → f p = some v →
      (pre ++ p :: post).findSome? f = some v := by
  intro pre
  induction pre with
  | nil =>
      intro p post v _ hp
      simp [List.findSome?_cons, hp]
  | cons a pre2 ih =>
      intro p post v hnone hp
      rw [List.cons_append]
      rw [List.findSome?_cons, hnone a (List.mem_cons_self _ _)]
      exact ih (fun q hq => hnone q (List.mem_cons_of_mem _ hq)) hp

lemma phase1Try_inv {ctx : AllocCtx} {sortedItems : List FurnitureItem}
    {pallet : PalletType} {picked : PalletType × CanFitResult × ℚ × ℚ}
    (h : phase1Try ctx sortedItems pallet = some picked) :
    picked.1 = pallet ∧
    picked.2.1 = canAllFitOnOnePallet sortedItems pallet ctx.packagingMarginCm ctx.options ∧
    (canAllFitOnOnePallet sortedItems pallet ctx.packagingMarginCm ctx.options).fits = true := by
  unfold phase1Try at h
  by_cases hfit : (canAllFitOnOnePallet sortedItems pallet ctx.packagingMarginCm ctx.options).fits = true
  · rw [if_pos hfit] at h
    dsimp only at h
    cases hrate : findRate ctx.rateTable pallet.category (sumWeights sortedItems)
        ctx.distanceBand with
    | none => rw [hrate] at h; exact absurd h (by simp)
    | some rate =>
        rw [hrate] at h
        cases h
        exact ⟨rfl, rfl, hfit⟩
  · rw [if_neg hfit] at h
    exact absurd h (by simp)

lemma perm_shuffle {α : Type} (A C U D T : List α) (h : C.Perm T) :
    (((A ++ C) ++ U) ++ D).Perm ((A ++ U) ++ (T ++ D)) := by
  have e1 : ((A ++ C) ++ U) ++ D = A ++ (C ++ (U ++ D)) := by
    simp [List.append_assoc]
  have e2 : (A ++ U) ++ (T ++ D) = A ++ (U ++ (T ++ D)) := by
    simp [List.append_assoc]
  rw [e1, e2]
  refine List.Perm.append_left A ?_
  refine List.Perm.trans (List.Perm.append_right (U ++ D) h) ?_
  have e3 : T ++ (U ++ D) = (T ++ U) ++ D := (List.append_assoc T U D).symm
  have e4 : U ++ (T ++ D) = (U ++ T) ++ D := (List.append_assoc U T D).symm
  rw [e3, e4]
  exact List.Perm.append_right D List.perm_append_comm

lemma filter_not_contains_take (l : List FurnitureItem) (c : ℕ)
    (hnodup : (l.map (fun it => it.id)).Nodup) :
    l.filter (fun it => !(((l.take c).map (fun it => it.id)).contains it.id)) =
      l.drop c := by
  have hsplit := hnodup
  rw [← List.take_append_drop c (l.map (fun it => it.id)), List.nodup_append] at hsplit
  obtain ⟨-, -, hdisj⟩ := hsplit
  set p : FurnitureItem → Bool :=
    fun it => !(((l.take c).map (fun it => it.id)).contains it.id) with hp
  have htake : (l.take c).filter p = [] := by
    rw [List.filter_eq_nil_iff]
    intro a ha
    simp [hp]
    rw [← List.map_take]
    exact List.mem_map.2 ⟨a, ha, rfl⟩
  have hdrop : (l.drop c).filter p = l.drop c := by
    rw [List.filter_eq_self]
    intro a ha
    have hnotmem : a.id ∉ (l.take c).map (fun it => it.id) := by
      intro hmem
      exact hdisj (by rw [← List.map_take]; exact hmem)
        (by rw [← List.map_drop]; exact List.mem_map.2 ⟨a, ha, rfl⟩)
    simp [hp]
    rw [← List.map_take]
    exact hnotmem
  conv_lhs => rw [← List.take_append_drop c l]
  rw [List.filter_append, htake, hdrop, List.nil_append]

/-- One Phase-2 iteration preserves the tracked id multiset and the
    distinctness of the remaining ids. -/
lemma phase2Step_ids (ctx : AllocCtx) (s : P2State)
    (hnodup : (s.remaining.map (fun it => it.id)).Nodup) :
    (stateIds (phase2Step ctx s)).Perm (stateIds s) ∧
    ((phase2Step ctx s).remaining.map (fun it => it.id)).Nodup := by
  obtain ⟨rem, allocs, unall, warns⟩ := s
  cases rem with
  | nil => exact ⟨List.Perm.refl _, hnodup⟩
  | cons first rest =>
      unfold phase2Step
      dsimp only
      cases hpick : pickBest ctx (first :: rest) with
      | none =>
          dsimp only
          constructor
          · unfold stateIds
            dsimp only
            simp only [List.map_append, List.map_cons, List.map_nil, List.append_assoc,
              List.singleton_append, List.cons_append, List.nil_append]
            exact List.Perm.refl _
          · exact (List.nodup_cons.1 hnodup).2
      | some cand =>
          dsimp only
          obtain ⟨pallet, -, htp⟩ := pickBest_shape hpick
          obtain ⟨c, -, htc⟩ := tryPallet_shape htp
          obtain ⟨hitems, hfits, hplc⟩ := tryCount_items htc
          have hplids : (cand.1.items.map (fun pl => pl.item.id)).Perm
              (((first :: rest).take c).map (fun it => it.id)) := by
            rw [hplc]
            exact canAllFit_placement_ids hfits
          have hfilter := filter_not_contains_take (first :: rest) c hnodup
          constructor
          · unfold stateIds
            dsimp only
            rw [hitems, hfilter]
            rw [List.flatMap_append]
            simp only [List.flatMap_cons, List.flatMap_nil, List.append_nil]
            have hsplitids : (first :: rest).map (fun it => it.id) =
                ((first :: rest).take c).map (fun it => it.id) ++
                  ((first :: rest).drop c).map (fun it => it.id) := by
              rw [List.map_take, List.map_drop, List.take_append_drop]
            rw [hsplitids]
            exact perm_shuffle _ _ _ _ _ hplids
          · rw [hitems, hfilter]
            rw [List.map_drop]
            exact List.Nodup.sublist (List.drop_sublist _ _) hnodup

/-- The Phase-2 loop preserves the tracked id multiset. -/
lemma phase2Fuel_ids : ∀ (n : ℕ) (ctx : AllocCtx) (s : P2State),
    (s.remaining.map (fun it => it.id)).Nodup →
    (stateIds (phase2Fuel ctx n s)).Perm (stateIds s) ∧
    ((phase2Fuel ctx n s).remaining.map (fun it => it.id)).Nodup := by
  intro n
  induction n with
  | zero => intro ctx s h; exact ⟨List.Perm.refl _, h⟩
  | succ n ih =>
      intro ctx s h
      unfold phase2Fuel
      cases hr : s.remaining with
      | nil => exact ⟨List.Perm.refl _, h⟩
      | cons first rest =>
          obtain ⟨hstep, hstepnodup⟩ := phase2Step_ids ctx s h
          obtain ⟨hrec, hrecnodup⟩ := ih ctx (phase2Step ctx s) hstepnodup
          exact ⟨List.Perm.trans hrec hstep, hrecnodup⟩

/-- With the remaining-item count as fuel, Phase 2 always drains the
    remaining list. -/
lemma phase2Fuel_complete : ∀ (n : ℕ) (ctx : AllocCtx) (s : P2State),
    s.remaining.length ≤ n → (phase2Fuel ctx n s).remaining = [] := by
  intro n
  induction n with
  | zero =>
      intro ctx s h
      have h0 : s.remaining = [] := List.length_eq_zero.1 (Nat.le_zero.1 h)
      unfold phase2Fuel
      exact h0
  | succ n ih =>
      intro ctx s h
      unfold phase2Fuel
      cases hr : s.remaining with
      | nil => exact hr
      | cons first rest =>
          refine ih ctx (phase2Step ctx s) ?_
          have hlt := phase2Step_decreases ctx s (by rw [hr]; exact List.cons_ne_nil _ _)
          omega

end BinPacking

/-- C4: `optimizeMultiItem` terminates on every finite item list: each
    Phase-2 outer iteration strictly decreases the number of remaining
    items (a committed allocation contains at least one taken item, and
    otherwise the first remaining item moves to the unallocated list), so
    running the loop with the remaining-item count as fuel — exactly what
    `optimizeMultiItem` does — always drains the remaining list, i.e. the
    loop needs at most (original item count) iterations. -/
theorem optimizeMultiItem_phase2_terminates (ctx : BinPacking.AllocCtx)
    (s : BinPacking.P2State) :
    (s.remaining ≠ [] →
      (BinPacking.phase2Step ctx s).remaining.length < s.remaining.length) ∧
    (BinPacking.phase2Fuel ctx s.remaining.length s).remaining = [] :=
  ⟨BinPacking.phase2Step_decreases ctx s,
   BinPacking.phase2Fuel_complete s.remaining.length ctx s le_rfl⟩

/-- Witness for C4 at a concrete state: one remaining item over an empty
    pallet catalogue is demoted in one step and the fuelled loop drains. -/
theorem optimizeMultiItem_phase2_terminates_witness :
    ((BinPacking.phase2Step phase2WitnessCtx phase2WitnessState).remaining.length <
      phase2WitnessState.remaining.length) ∧
    (BinPacking.phase2Fuel phase2WitnessCtx phase2WitnessState.remaining.length
        phase2WitnessState).remaining = [] :=
  ⟨(optimizeMultiItem_phase2_terminates phase2WitnessCtx phase2WitnessState).1 (by decide),
   (optimizeMultiItem_phase2_terminates phase2WitnessCtx phase2WitnessState).2⟩

/- ===== C3: Phase-1 commit ===== -/

/-- C3 counterexample: the first pallet in ascending approximate-rate order
    is P1 and the joint fit succeeds on it, yet P1 is NOT committed — the
    sole allocation lands on P2, because Phase 1 additionally requires an
    applicable rate for the total weight (P1's only tier is capped at
    100 kg < 200 kg). This refutes the claim that the search stops at the
    first pallet whose joint-fit procedure succeeds. -/
theorem optimizeMultiItem_first_fit_not_committed_cex :
    ((BinPacking.allocCtxOf c3Input ⟨[c3PalletHalf, c3PalletStd]⟩ c3RateTable
        c3Surcharges).sortedPallets.head? = some c3PalletHalf) ∧
    ((BinPacking.canAllFitOnOnePallet (BinPacking.sortedItemsOf c3Input) c3PalletHalf
        c3Input.packagingMarginCm c3Input.options).fits = true) ∧
    ((BinPacking.optimizeMultiItem c3Input ⟨[c3PalletHalf, c3PalletStd]⟩ c3RateTable
        c3Surcharges).allocations.map (fun a => a.pallet.id) = ["P2"]) := by
  refine ⟨by decide, by decide, by decide⟩

/-- C3 (amended): pallets are tried in ascending order of approximate
    rate, and on the first pallet whose joint fit succeeds AND for which a
    rate applies to the total weight, that pallet is committed as the sole
    allocation containing every input item, the search stops, and the
    result has exactly one allocation with an empty unallocated list. -/
theorem optimizeMultiItem_phase1_commits_first_fit_with_rate
    (input : MultiItemInput) (cfg : PalletTypesConfig) (rt : RateTableConfig)
    (sc : SurchargesConfig) (pre post : List PalletType) (p : PalletType)
    (hsorted : (BinPacking.allocCtxOf input cfg rt sc).sortedPallets = pre ++ p :: post)
    (hpre : ∀ q ∈ pre, ¬ BinPacking.phase1Success (BinPacking.allocCtxOf input cfg rt sc)
      (BinPacking.sortedItemsOf input) q)
    (hp : BinPacking.phase1Success (BinPacking.allocCtxOf input cfg rt sc)
      (BinPacking.sortedItemsOf input) p) :
    ((BinPacking.optimizeMultiItem input cfg rt sc).allocations.map (fun a => a.pallet) = [p]) ∧
    (((BinPacking.optimizeMultiItem input cfg rt sc).allocations.flatMap
        (fun a => a.items.map (fun pl => pl.item.id))).Perm
      (input.items.map (fun it => it.id))) ∧
    ((BinPacking.optimizeMultiItem input cfg rt sc).unallocated = []) ∧
    ((BinPacking.allocCtxOf input cfg rt sc).sortedPallets.Pairwise
      (fun a b => BinPacking.approxPalletRate rt input.distanceBand a ≤
        BinPacking.approxPalletRate rt input.distanceBand b)) := by
  obtain ⟨rate, hrate, htry⟩ := BinPacking.phase1Try_eq_some hp
  have hpick : BinPacking.phase1Pick (BinPacking.allocCtxOf input cfg rt sc)
      (BinPacking.sortedItemsOf input) =
      some (p, BinPacking.canAllFitOnOnePallet (BinPacking.sortedItemsOf input) p
        (BinPacking.allocCtxOf input cfg rt sc).packagingMarginCm
        (BinPacking.allocCtxOf input cfg rt sc).options,
        BinPacking.sumWeights (BinPacking.sortedItemsOf input), rate) := by
    unfold BinPacking.phase1Pick
    rw [hsorted]
    exact BinPacking.findSome?_first pre
      (fun q hq => BinPacking.phase1Try_eq_none (hpre q hq)) htry
  have hfits2 : (BinPacking.canAllFitOnOnePallet (BinPacking.sortedItemsOf input) p
      input.packagingMarginCm input.options).fits = true := hp.1
  refine ⟨?_, ?_, ?_, ?_⟩
  · simp only [BinPacking.optimizeMultiItem, hpick]
    rfl
  · simp only [BinPacking.optimizeMultiItem, hpick]
    simp only [List.flatMap_cons, List.flatMap_nil, List.append_nil]
    refine List.Perm.trans (BinPacking.canAllFit_placement_ids hfits2) ?_
    exact List.Perm.map _ (List.perm_insertionSort _ _)
  · simp only [BinPacking.optimizeMultiItem, hpick]
  · have htotal : IsTotal PalletType (fun a b =>
        BinPacking.approxPalletRate rt input.distanceBand a ≤
          BinPacking.approxPalletRate rt input.distanceBand b) :=
      ⟨fun a b => le_total _ _⟩
    have htrans : IsTrans PalletType (fun a b =>
        BinPacking.approxPalletRate rt input.distanceBand a ≤
          BinPacking.approxPalletRate rt input.distanceBand b) :=
      ⟨fun a b c hab hbc => le_trans hab hbc⟩
    exact List.sorted_insertionSort _ _

/-- Witness for C3 (amended) at a concrete input: a single STANDARD pallet
    with an applicable rate is committed as the sole allocation. -/
theorem optimizeMultiItem_phase1_commits_first_fit_with_rate_witness :
    ((BinPacking.optimizeMultiItem c3Input ⟨[c3PalletStd]⟩ c3RateTable c3Surcharges).allocations.map
        (fun a => a.pallet) = [c3PalletStd]) ∧
    (((BinPacking.optimizeMultiItem c3Input ⟨[c3PalletStd]⟩ c3RateTable c3Surcharges).allocations.flatMap
        (fun a => a.items.map (fun pl => pl.item.id))).Perm
      (c3Input.items.map (fun it => it.id))) ∧
    ((BinPacking.optimizeMultiItem c3Input ⟨[c3PalletStd]⟩ c3RateTable c3Surcharges).unallocated = []) ∧
    ((BinPacking.allocCtxOf c3Input ⟨[c3PalletStd]⟩ c3RateTable c3Surcharges).sortedPallets.Pairwise
      (fun a b => BinPacking.approxPalletRate c3RateTable c3Input.distanceBand a ≤
        BinPacking.approxPalletRate c3RateTable c3Input.distanceBand b)) :=
  optimizeMultiItem_phase1_commits_first_fit_with_rate c3Input ⟨[c3PalletStd]⟩
    c3RateTable c3Surcharges [] [] c3PalletStd (by decide)
    (by intro q hq; exact absurd hq (List.not_mem_nil _)) (by decide)

/- ===== Helper lemmas: row grouping ===== -/

namespace BinPacking

lemma scanRem_perm (cur : Packer.PackedItem) :
    ∀ l : List Packer.PackedItem, ((scanRem cur l).1 ++ (scanRem cur l).2).Perm l := by
  intro l
  induction l with
  | nil => exact List.Perm.refl _
  | cons x xs ih =>
      unfold scanRem
      dsimp only
      by_cases h : yOverlap cur x
      · rw [if_pos h]
        dsimp only
        have e1 : (scanRem cur xs).1 ++ ((scanRem cur xs).2 ++ [x]) =
            ((scanRem cur xs).1 ++ (scanRem cur xs).2) ++ [x] :=
          (List.append_assoc _ _ _).symm
        rw [e1]
        refine List.Perm.trans List.perm_append_comm ?_
        exact List.Perm.cons x ih
      · rw [if_neg h]
        dsimp only
        exact List.Perm.cons x ih

lemma scanRem_kept_not (cur : Packer.PackedItem) :
    ∀ l : List Packer.PackedItem, ∀ q ∈ (scanRem cur l).1, ¬ yOverlap cur q := by
  intro l
  induction l with
  | nil => intro q hq; exact absurd hq (List.not_mem_nil _)
  | cons x xs ih =>
      intro q hq
      unfold scanRem at hq
      dsimp only at hq
      by_cases h : yOverlap cur x
      · rw [if_pos h] at hq
        exact ih q hq
      · rw [if_neg h] at hq
        rcases List.mem_cons.1 hq with rfl | hq2
        · exact h
        · exact ih q hq2

lemma scanRem_lengths (cur : Packer.PackedItem) (l : List Packer.PackedItem) :
    (scanRem cur l).1.length + (scanRem cur l).2.length = l.length := by
  have h := (scanRem_perm cur l).length_eq
  simpa using h

lemma bfsF_perm : ∀ (fuel : ℕ) (g st r : List Packer.PackedItem),
    ((bfsF fuel g st r).1 ++ (bfsF fuel g st r).2).Perm (g ++ r) := by
  intro fuel
  induction fuel with
  | zero => intro g st r; exact List.Perm.refl _
  | succ fuel ih =>
      intro g st r
      unfold bfsF
      cases st with
      | nil => exact List.Perm.refl _
      | cons cur rest =>
          dsimp only
          refine List.Perm.trans (ih _ _ _) ?_
          rw [List.append_assoc]
          refine List.Perm.append_left g ?_
          refine List.Perm.trans List.perm_append_comm ?_
          exact scanRem_perm cur r

lemma bfsF_rem_length : ∀ (fuel : ℕ) (g st r : List Packer.PackedItem),
    (bfsF fuel g st r).2.length ≤ r.length := by
  intro fuel
  induction fuel with
  | zero => intro g st r; exact le_rfl
  | succ fuel ih =>
      intro g st r
      unfold bfsF
      cases st with
      | nil => exact le_rfl
      | cons cur rest =>
          dsimp only
          refine le_trans (ih _ _ _) ?_
          have := scanRem_lengths cur r
          omega

lemma bfsF_sep : ∀ (fuel : ℕ) (g st r : List Packer.PackedItem),
    st.length + 2 * r.length ≤ fuel →
    (∀ p ∈ g, p ∈ st ∨ ∀ q ∈ r, ¬ yOverlap p q) →
    ∀ p ∈ (bfsF fuel g st r).1, ∀ q ∈ (bfsF fuel g st r).2, ¬ yOverlap p q := by
  intro fuel
  induction fuel with
  | zero =>
      intro g st r hfuel _ p _ q hq
      have hr : r = [] := List.length_eq_zero.1 (by omega)
      subst hr
      exact absurd hq (List.not_mem_nil _)
  | succ fuel ih =>
      intro g st r hfuel hinv p hp q hq
      unfold bfsF at hp hq
      cases st with
      | nil =>
          rcases hinv p hp with hmem | hsep
          · exact absurd hmem (List.not_mem_nil _)
          · exact hsep q hq
      | cons cur rest =>
          dsimp only at hp hq
          refine ih (g ++ (scanRem cur r).2) ((scanRem cur r).2.reverse ++ rest)
            (scanRem cur r).1 ?_ ?_ p hp q hq
          · have hlen := scanRem_lengths cur r
            simp only [List.length_append, List.length_reverse, List.length_cons] at hfuel ⊢
            omega
          · intro p2 hp2
            rcases List.mem_append.1 hp2 with hpg | hprem
            · rcases hinv p2 hpg with hmem | hsep
              · rcases List.mem_cons.1 hmem with rfl | hrest
                · exact Or.inr (fun q2 hq2 => scanRem_kept_not _ _ q2 hq2)
                · exact Or.inl (List.mem_append_right _ hrest)
              · refine Or.inr (fun q2 hq2 => hsep q2 ?_)
                exact (scanRem_perm cur r).mem_iff.1 (List.mem_append_left _ hq2)
            · exact Or.inl (List.mem_append_left _ (List.mem_reverse.2 hprem))

lemma sortByY_perm (r : List Packer.PackedItem) : (sortByY r).Perm r :=
  List.perm_insertionSort _ r

lemma groupLoopF_perm : ∀ (fuel : ℕ) (r : List Packer.PackedItem),
    r.length ≤ fuel → ((groupLoopF fuel r).flatten).Perm r := by
  intro fuel
  induction fuel with
  | zero =>
      intro r h
      have hr : r = [] := List.length_eq_zero.1 (Nat.le_zero.1 h)
      subst hr
      exact List.Perm.refl _
  | succ fuel ih =>
      intro r h
      unfold groupLoopF
      cases hs : sortByY r with
      | nil =>
          have hr : r = [] := List.Perm.eq_nil ((hs ▸ sortByY_perm r).symm)
          subst hr
          exact List.Perm.refl _
      | cons seed rest =>
          dsimp only
          rw [List.flatten_cons]
          have hsr : (seed :: rest).Perm r := hs ▸ sortByY_perm r
          have hlen : rest.length + 1 = r.length := by
            have := hsr.length_eq
            simpa using this
          have hrr : (bfsGroup [seed] [seed] rest).2.length ≤ rest.length :=
            bfsF_rem_length _ _ _ _
          have hrec := ih (bfsGroup [seed] [seed] rest).2 (by omega)
          refine List.Perm.trans (List.Perm.append_left _ hrec) ?_
          refine List.Perm.trans (bfsF_perm _ _ _ _) ?_
          exact hsr

lemma groupLoopF_sep : ∀ (fuel : ℕ) (r : List Packer.PackedItem),
    r.length ≤ fuel →
    (groupLoopF fuel r).Pairwise
      (fun g1 g2 => ∀ p ∈ g1, ∀ q ∈ g2, ¬ yOverlap p q) := by
  intro fuel
  induction fuel with
  | zero => intro r _; exact List.Pairwise.nil
  | succ fuel ih =>
      intro r h
      unfold groupLoopF
      cases hs : sortByY r with
      | nil => exact List.Pairwise.nil
      | cons seed rest =>
          dsimp only
          have hsr : (seed :: rest).Perm r := hs ▸ sortByY_perm r
          have hlen : rest.length + 1 = r.length := by
            have := hsr.length_eq
            simpa using this
          have hrr : (bfsGroup [seed] [seed] rest).2.length ≤ rest.length :=
            bfsF_rem_length _ _ _ _
          refine List.Pairwise.cons ?_ (ih _ (by omega))
          intro g2 hg2 p hp q hq
          have hqrr : q ∈ (bfsGroup [seed] [seed] rest).2 := by
            have hqflat : q ∈ ((groupLoopF fuel (bfsGroup [seed] [seed] rest).2).flatten) :=
              List.mem_flatten.2 ⟨g2, hg2, hq⟩
            exact (groupLoopF_perm fuel _ (by omega)).mem_iff.1 hqflat
          refine bfsF_sep _ [seed] [seed] rest le_rfl ?_ p hp q hqrr
          intro p2 hp2
          exact Or.inl hp2

lemma find_reverse_unique {l : List (String × ℚ × ℚ)}
    (hnod : (l.map (fun e => e.1)).Nodup) {e : String × ℚ × ℚ} (he : e ∈ l) :
    l.reverse.find? (fun x => decide (x.1 = e.1)) = some e := by
  induction l with
  | nil => exact absurd he (List.not_mem_nil _)
  | cons a t ih =>
      have h2 : (a.1 :: t.map (fun e => e.1)).Nodup := by simpa using hnod
      obtain ⟨hnotin, hkeys⟩ := List.nodup_cons.1 h2
      rw [List.reverse_cons, List.find?_append]
      rcases List.mem_cons.1 he with rfl | het
      · have hnone : t.reverse.find? (fun x => decide (x.1 = e.1)) = none := by
          rw [List.find?_eq_none]
          intro x hx
          simp only [decide_eq_true_eq]
          intro hEq
          exact hnotin (List.mem_map.2 ⟨x, List.mem_reverse.1 hx, hEq⟩)
        rw [hnone]
        simp [List.find?]
      · rw [ih hkeys het]
        rfl

lemma flatMap_map_eq_map_flatten {α β : Type} (L : List (List α)) (f : α → β) :
    L.flatMap (fun g => g.map f) = L.flatten.map f := by
  induction L with
  | nil => rfl
  | cons g gs ih => simp [List.flatten_cons, List.map_append, List.flatMap_cons, ih]

lemma foldl_min_le {α : Type} (f : α → ℚ) :
    ∀ (l : List α) (a : ℚ), l.foldl (fun acc p => min acc (f p)) a ≤ a := by
  intro l
  induction l with
  | nil => intro a; exact le_rfl
  | cons x xs ih =>
      intro a
      exact le_trans (ih (min a (f x))) (min_le_left _ _)

lemma foldl_min_le_mem {α : Type} (f : α → ℚ) :
    ∀ (l : List α) (a : ℚ) (p : α), p ∈ l →
      l.foldl (fun acc p => min acc (f p)) a ≤ f p := by
  intro l
  induction l with
  | nil => intro a p hp; exact absurd hp (List.not_mem_nil _)
  | cons x xs ih =>
      intro a p hp
      rcases List.mem_cons.1 hp with rfl | hp2
      · exact le_trans (foldl_min_le f xs (min a (f p))) (min_le_right _ _)
      · exact ih (min a (f x)) p hp2

lemma le_foldl_min {α : Type} (f : α → ℚ) :
    ∀ (l : List α) (a c : ℚ), c ≤ a → (∀ p ∈ l, c ≤ f p) →
      c ≤ l.foldl (fun acc p => min acc (f p)) a := by
  intro l
  induction l with
  | nil => intro a c hc _; exact hc
  | cons x xs ih =>
      intro a c hc hall
      exact ih (min a (f x)) c (le_min hc (hall x (List.mem_cons_self _ _)))
        (fun p hp => hall p (List.mem_cons_of_mem _ hp))

lemma foldl_max_ge {α : Type} (f : α → ℚ) :
    ∀ (l : List α) (a : ℚ), a ≤ l.foldl (fun acc p => max acc (f p)) a := by
  intro l
  induction l with
  | nil => intro a; exact le_rfl
  | cons x xs ih =>
      intro a
      exact le_trans (le_max_left _ _) (ih (max a (f x)))

lemma foldl_max_ge_mem {α : Type} (f : α → ℚ) :
    ∀ (l : List α) (a : ℚ) (p : α), p ∈ l →
      f p ≤ l.foldl (fun acc p => max acc (f p)) a := by
  intro l
  induction l with
  | nil => intro a p hp; exact absurd hp (List.not_mem_nil _)
  | cons x xs ih =>
      intro a p hp
      rcases List.mem_cons.1 hp with rfl | hp2
      · exact le_trans (le_max_right _ _) (foldl_max_ge f xs (max a (f p)))
      · exact ih (max a (f x)) p hp2

lemma foldl_max_le {α : Type} (f : α → ℚ) :
    ∀ (l : List α) (a c : ℚ), a ≤ c → (∀ p ∈ l, f p ≤ c) →
      l.foldl (fun acc p => max acc (f p)) a ≤ c := by
  intro l
  induction l with
  | nil => intro a c hc _; exact hc
  | cons x xs ih =>
      intro a c hc hall
      exact ih (max a (f x)) c (max_le hc (hall x (List.mem_cons_self _ _)))
        (fun p hp => hall p (List.mem_cons_of_mem _ hp))

lemma listMinQ_le {α : Type} {f : α → ℚ} {g : List α} {p : α} (hp : p ∈ g) :
    listMinQ f g ≤ f p := by
  cases g with
  | nil => exact absurd hp (List.not_mem_nil _)
  | cons x xs =>
      unfold listMinQ
      rcases List.mem_cons.1 hp with rfl | hp2
      · exact foldl_min_le f xs (f p)
      · exact foldl_min_le_mem f xs (f x) p hp2

lemma le_listMinQ {α : Type} {f : α → ℚ} {g : List α} {c : ℚ} (hne : g ≠ [])
    (hall : ∀ p ∈ g, c ≤ f p) : c ≤ listMinQ f g := by
  cases g with
  | nil => exact absurd rfl hne
  | cons x xs =>
      unfold listMinQ
      exact le_foldl_min f xs (f x) c (hall x (List.mem_cons_self _ _))
        (fun p hp => hall p (List.mem_cons_of_mem _ hp))

lemma listMaxQ_ge {α : Type} {f : α → ℚ} {g : List α} {p : α} (hp : p ∈ g) :
    f p ≤ listMaxQ f g := by
  cases g with
  | nil => exact absurd hp (List.not_mem_nil _)
  | cons x xs =>
      unfold listMaxQ
      rcases List.mem_cons.1 hp with rfl | hp2
      · exact foldl_max_ge f xs (f p)
      · exact foldl_max_ge_mem f xs (f x) p hp2

lemma listMaxQ_le {α : Type} {f : α → ℚ} {g : List α} {c : ℚ} (hne : g ≠ [])
    (hall : ∀ p ∈ g, f p ≤ c) : listMaxQ f g ≤ c := by
  cases g with
  | nil => exact absurd rfl hne
  | cons x xs =>
      unfold listMaxQ
      exact foldl_max_le f xs (f x) c (hall x (List.mem_cons_self _ _))
        (fun p hp => hall p (List.mem_cons_of_mem _ hp))

lemma groupPackedItems_flatten_perm (packed : List Packer.PackedItem) :
    ((groupPackedItems packed).flatten).Perm packed :=
  groupLoopF_perm _ _ le_rfl

lemma groupPackedItems_sep (packed : List Packer.PackedItem) :
    (groupPackedItems packed).Pairwise
      (fun g1 g2 => ∀ p ∈ g1, ∀ q ∈ g2, ¬ yOverlap p q) :=
  groupLoopF_sep _ _ le_rfl

lemma placementPositions_keys (palletW : ℚ) (packed : List Packer.PackedItem) :
    (placementPositions palletW packed).map (fun e => e.1) =
      ((groupPackedItems packed).flatten).map (fun p => p.id) := by
  unfold placementPositions
  rw [List.map_flatMap, ← flatMap_map_eq_map_flatten]
  congr 1
  funext g
  dsimp only
  rw [List.map_map]
  rfl

lemma mem_of_mem_group {packed : List Packer.PackedItem}
    {g : List Packer.PackedItem} (hg : g ∈ groupPackedItems packed)
    {p : Packer.PackedItem} (hp : p ∈ g) : p ∈ packed :=
  (groupPackedItems_flatten_perm packed).subset (List.mem_flatten.2 ⟨g, hg, hp⟩)

lemma exists_group {packed : List Packer.PackedItem} {p : Packer.PackedItem}
    (hp : p ∈ packed) : ∃ g ∈ groupPackedItems packed, p ∈ g :=
  List.mem_flatten.1 ((groupPackedItems_flatten_perm packed).mem_iff.2 hp)

lemma placementPositions_lookup (palletW : ℚ) {packed : List Packer.PackedItem}
    (hnodup : (packed.map (fun p => p.id)).Nodup)
    {g : List Packer.PackedItem} (hg : g ∈ groupPackedItems packed)
    {p : Packer.PackedItem} (hp : p ∈ g) :
    lookupPos (placementPositions palletW packed) p.id =
      (p.x + groupOffsetX palletW g, p.y) := by
  have hkeys : ((placementPositions palletW packed).map (fun e => e.1)).Nodup := by
    rw [placementPositions_keys]
    exact (((groupPackedItems_flatten_perm packed).map (fun p => p.id)).nodup_iff).2 hnodup
  have hmem : (p.id, p.x + groupOffsetX palletW g, p.y) ∈
      placementPositions palletW packed := by
    unfold placementPositions
    refine List.mem_flatMap.2 ⟨g, hg, ?_⟩
    exact List.mem_map.2 ⟨p, hp, rfl⟩
  have hfind : (placementPositions palletW packed).reverse.find?
        (fun x => decide (x.1 = p.id)) =
      some (p.id, p.x + groupOffsetX palletW g, p.y) :=
    find_reverse_unique hkeys hmem
  unfold lookupPos
  rw [hfind]

lemma ysep_of_not_overlap {a b : Packer.PackedItem}
    (h : ¬ yOverlap a b ∨ ¬ yOverlap b a) :
    a.y + a.height ≤ b.y ∨ b.y + b.height ≤ a.y := by
  unfold yOverlap at h
  rcases h with h | h <;> (rw [not_and_or] at h; push_neg at h) <;> tauto

lemma group_cases {packed : List Packer.PackedItem}
    {g1 g2 : List Packer.PackedItem}
    (hg1 : g1 ∈ groupPackedItems packed) (hg2 : g2 ∈ groupPackedItems packed)
    {p q : Packer.PackedItem} (hp : p ∈ g1) (hq : q ∈ g2) :
    (∃ g, g ∈ groupPackedItems packed ∧ p ∈ g ∧ q ∈ g) ∨
      (¬ yOverlap p q ∨ ¬ yOverlap q p) := by
  by_cases heq : g1 = g2
  · exact Or.inl ⟨g1, hg1, hp, heq ▸ hq⟩
  · have h' : (groupPackedItems packed).Pairwise
        (fun a b => (∀ x ∈ a, ∀ y ∈ b, ¬ yOverlap x y) ∨
          (∀ x ∈ b, ∀ y ∈ a, ¬ yOverlap x y)) :=
      (groupPackedItems_sep packed).imp Or.inl
    have hsym : Symmetric (fun (a b : List Packer.PackedItem) =>
        (∀ x ∈ a, ∀ y ∈ b, ¬ yOverlap x y) ∨ (∀ x ∈ b, ∀ y ∈ a, ¬ yOverlap x y)) :=
      fun _ _ h => h.symm
    rcases List.Pairwise.forall hsym h' hg1 hg2 heq with hs | hs
    · exact Or.inr (Or.inl (hs p hp q hq))
    · exact Or.inr (Or.inr (hs q hq p hp))

lemma groupX_bounds {palletW : ℚ} {packed : List Packer.PackedItem}
    (hcont : ∀ q ∈ packed, 0 ≤ q.x ∧ q.x + q.width ≤ palletW)
    {g : List Packer.PackedItem} (hg : g ∈ groupPackedItems packed)
    {p : Packer.PackedItem} (hp : p ∈ g) :
    0 ≤ p.x + groupOffsetX palletW g ∧
      p.x + p.width + groupOffsetX palletW g ≤ palletW := by
  have hne : g ≠ [] := List.ne_nil_of_mem hp
  have hmn : (0:ℚ) ≤ listMinQ (fun q => q.x) g :=
    le_listMinQ hne (fun q hq => (hcont q (mem_of_mem_group hg hq)).1)
  have hMx : listMaxQ (fun q => q.x + q.width) g ≤ palletW :=
    listMaxQ_le hne (fun q hq => (hcont q (mem_of_mem_group hg hq)).2)
  have hpx : listMinQ (fun q => q.x) g ≤ p.x := listMinQ_le hp
  have hpw : p.x + p.width ≤ listMaxQ (fun q => q.x + q.width) g := listMaxQ_ge hp
  unfold groupOffsetX
  constructor <;> linarith

lemma globalY_bounds {palletL : ℚ} {packed : List Packer.PackedItem}
    (hcont : ∀ q ∈ packed, 0 ≤ q.y ∧ q.y + q.height ≤ palletL)
    {p : Packer.PackedItem} (hp : p ∈ packed) :
    0 ≤ p.y + globalOffsetYOf palletL packed ∧
      p.y + p.height + globalOffsetYOf palletL packed ≤ palletL := by
  have hne : packed ≠ [] := List.ne_nil_of_mem hp
  have hmn : (0:ℚ) ≤ listMinQ (fun q => q.y) packed :=
    le_listMinQ hne (fun q hq => (hcont q hq).1)
  have hMy : listMaxQ (fun q => q.y + q.height) packed ≤ palletL :=
    listMaxQ_le hne (fun q hq => (hcont q hq).2)
  have hpy : listMinQ (fun q => q.y) packed ≤ p.y := listMinQ_le hp
  have hph : p.y + p.height ≤ listMaxQ (fun q => q.y + q.height) packed :=
    listMaxQ_ge hp
  unfold globalOffsetYOf
  constructor <;> linarith

lemma buildPlacements_geometry {palletW palletL : ℚ}
    {preparedItems : List PreparedItem} {packed : List Packer.PackedItem}
    (hnodup : (packed.map (fun p => p.id)).Nodup)
    (hpair : packed.Pairwise (fun a b =>
      Packer.rectDisjoint (Packer.rectOfPacked a) (Packer.rectOfPacked b)))
    (hcont : ∀ q ∈ packed,
      Packer.isContained (Packer.rectOfPacked q) ⟨0, 0, palletW, palletL⟩) :
    (buildPlacements palletW palletL preparedItems packed).Pairwise
        placementNoOverlap ∧
      ∀ pl ∈ buildPlacements palletW palletL preparedItems packed,
        placementWithin palletW palletL pl := by
  have hcontX : ∀ q ∈ packed, 0 ≤ q.x ∧ q.x + q.width ≤ palletW := by
    intro q hq
    have h := hcont q hq
    unfold Packer.isContained Packer.rectOfPacked at h
    dsimp only at h
    exact ⟨h.1, by linarith [h.2.2.1]⟩
  have hcontY : ∀ q ∈ packed, 0 ≤ q.y ∧ q.y + q.height ≤ palletL := by
    intro q hq
    have h := hcont q hq
    unfold Packer.isContained Packer.rectOfPacked at h
    dsimp only at h
    exact ⟨h.2.1, by linarith [h.2.2.2]⟩
  constructor
  · unfold buildPlacements
    rw [List.pairwise_map]
    refine List.Pairwise.imp_of_mem ?_ hpair
    intro a b ha hb hR
    obtain ⟨ga, hga, hpga⟩ := exists_group ha
    obtain ⟨gb, hgb, hpgb⟩ := exists_group hb
    unfold placementNoOverlap
    dsimp only
    unfold Packer.rectDisjoint Packer.rectOfPacked at hR
    dsimp only at hR
    rcases group_cases hga hgb hpga hpgb with ⟨g, hg, hag, hbg⟩ | hsep
    · have hla := placementPositions_lookup palletW hnodup hg hag
      have hlb := placementPositions_lookup palletW hnodup hg hbg
      rw [hla, hlb]
      dsimp only
      rcases hR with h | h | h | h
      · exact Or.inl (by linarith)
      · exact Or.inr (Or.inl (by linarith))
      · exact Or.inr (Or.inr (Or.inl (by linarith)))
      · exact Or.inr (Or.inr (Or.inr (by linarith)))
    · have hla := placementPositions_lookup palletW hnodup hga hpga
      have hlb := placementPositions_lookup palletW hnodup hgb hpgb
      rw [hla, hlb]
      dsimp only
      rcases ysep_of_not_overlap hsep with h | h
      · exact Or.inr (Or.inr (Or.inl (by linarith)))
      · exact Or.inr (Or.inr (Or.inr (by linarith)))
  · unfold buildPlacements
    intro pl hpl
    obtain ⟨p, hp, rfl⟩ := List.mem_map.1 hpl
    obtain ⟨g, hg, hpg⟩ := exists_group hp
    have hlook := placementPositions_lookup palletW hnodup hg hpg
    have hX := groupX_bounds hcontX hg hpg
    have hY := globalY_bounds hcontY hp
    unfold placementWithin
    dsimp only
    rw [hlook]
    dsimp only
    exact ⟨hX.1, hY.1, by linarith [hX.2], by linarith [hY.2]⟩

end BinPacking

/-- C8: for every successful joint fit in `canAllFitOnOnePallet` on items
    with pairwise-distinct ids, the row-centering post-process (grouping
    by Y-overlap, horizontally centering each group, vertically centering
    the whole layout) preserves the packer's guarantees: the final
    placements are pairwise non-overlapping and each lies within the
    pallet's rounded width × length surface. -/
theorem canAllFit_centering_preserves_invariants
    (items : List FurnitureItem) (pallet : PalletType) (m : ℚ)
    (opts : TransportOptions)
    (hnodup : (items.map (fun it => it.id)).Nodup)
    (hfits : (BinPacking.canAllFitOnOnePallet items pallet m opts).fits = true) :
    ((BinPacking.canAllFitOnOnePallet items pallet m opts).placements).Pairwise
        BinPacking.placementNoOverlap ∧
      ∀ pl ∈ (BinPacking.canAllFitOnOnePallet items pallet m opts).placements,
        BinPacking.placementWithin ((jsRound (pallet.widthM * 100) : ℤ) : ℚ)
          ((jsRound (pallet.lengthM * 100) : ℤ) : ℚ) pl := by
  obtain ⟨prep, packed, hprep, hpack, hres⟩ :=
    BinPacking.canAllFit_success_shape hfits
  have hprepids := (BinPacking.prepareItems_ok_ids hprep).1
  have hpackids := Packer.pack_ids hpack
  have hinputids : ((prep.map (fun p => Packer.PackItem.mk p.id p.w p.h)).map
      (fun it => it.id)) = prep.map (fun p => p.id) := by
    rw [List.map_map]; rfl
  have hperm : (packed.map (fun q => q.id)).Perm (items.map (fun it => it.id)) := by
    rw [hpackids]
    have hs : ((Packer.sortItems
          (prep.map (fun p => Packer.PackItem.mk p.id p.w p.h))).map
        (fun it => it.id)).Perm
          ((prep.map (fun p => Packer.PackItem.mk p.id p.w p.h)).map
            (fun it => it.id)) :=
      (List.perm_insertionSort _ _).map _
    rw [hinputids, hprepids] at hs
    exact hs
  have hnodupPacked : (packed.map (fun q => q.id)).Nodup := hperm.nodup_iff.2 hnodup
  have hpair : packed.Pairwise (fun a b =>
      Packer.rectDisjoint (Packer.rectOfPacked a) (Packer.rectOfPacked b)) :=
    Packer.packLoop_pairwise _ _ _ hpack
  have hcont := Packer.pack_contained hpack
  rw [hres]
  dsimp only
  exact BinPacking.buildPlacements_geometry hnodupPacked hpair hcont

/-- Closed witness for C8: two 50×50 items with distinct ids on a 1m×1m
    pallet end up in two centered rows that neither overlap nor leave the
    surface. -/
theorem canAllFit_centering_preserves_invariants_witness :
    ((BinPacking.canAllFitOnOnePallet c8Items c8Pallet 0
        ⟨false, false⟩).placements).Pairwise BinPacking.placementNoOverlap ∧
      ∀ pl ∈ (BinPacking.canAllFitOnOnePallet c8Items c8Pallet 0
          ⟨false, false⟩).placements,
        BinPacking.placementWithin ((jsRound (c8Pallet.widthM * 100) : ℤ) : ℚ)
          ((jsRound (c8Pallet.lengthM * 100) : ℤ) : ℚ) pl :=
  canAllFit_centering_preserves_invariants c8Items c8Pallet 0 ⟨false, false⟩
    (by decide) (by decide)

/-- Counterexample to the unconditional form of C8: with a duplicated item
    id the joint fit still succeeds, but the id-keyed position map puts
    both rectangles at the same final position, so the placements overlap. -/
theorem canAllFit_centering_cex :
    (BinPacking.canAllFitOnOnePallet c8DupItems c8Pallet 0 ⟨false, false⟩).fits
        = true ∧
      ¬ ((BinPacking.canAllFitOnOnePallet c8DupItems c8Pallet 0
          ⟨false, false⟩).placements).Pairwise BinPacking.placementNoOverlap := by
  constructor
  · decide
  · decide

/-- C10: for items with pairwise-distinct ids, `optimizeMultiItem`
    partitions the input: each item id appears exactly once across all
    allocations' placements and the unallocated list combined — nothing is
    duplicated onto two pallets and nothing is silently dropped. -/
theorem optimizeMultiItem_partitions_items
    (input : MultiItemInput) (cfg : PalletTypesConfig) (rt : RateTableConfig)
    (sc : SurchargesConfig) (hnodup : (input.items.map (fun it => it.id)).Nodup) :
    (((BinPacking.optimizeMultiItem input cfg rt sc).allocations.flatMap
        (fun a => a.items.map (fun pl => pl.item.id))) ++
      (BinPacking.optimizeMultiItem input cfg rt sc).unallocated.map
        (fun u => u.item.id)).Perm
      (input.items.map (fun it => it.id)) := by
  have hsortperm : ((BinPacking.sortedItemsOf input).map (fun it => it.id)).Perm
      (input.items.map (fun it => it.id)) :=
    List.Perm.map _ (List.perm_insertionSort _ _)
  cases hpick : BinPacking.phase1Pick (BinPacking.allocCtxOf input cfg rt sc)
      (BinPacking.sortedItemsOf input) with
  | some picked =>
      obtain ⟨pallet, hmem, htry⟩ := List.exists_of_findSome?_eq_some hpick
      obtain ⟨hp1, hp2, hfits⟩ := BinPacking.phase1Try_inv htry
      simp only [BinPacking.optimizeMultiItem, hpick]
      simp only [List.flatMap_cons, List.flatMap_nil, List.append_nil, List.map_nil]
      rw [hp2]
      exact List.Perm.trans (BinPacking.canAllFit_placement_ids hfits) hsortperm
  | none =>
      by_cases hempty : (BinPacking.sortedItemsOf input).isEmpty
      · simp only [BinPacking.optimizeMultiItem, hpick, if_pos hempty]
        have hnil : BinPacking.sortedItemsOf input = [] := List.isEmpty_iff.1 hempty
        have h0 : (([] : List FurnitureItem).map (fun it => it.id)).Perm
            (input.items.map (fun it => it.id)) := by
          rw [← hnil]; exact hsortperm
        simpa using h0
      · simp only [BinPacking.optimizeMultiItem, hpick, if_neg hempty]
        have hnodup2 : ((BinPacking.sortedItemsOf input).map (fun it => it.id)).Nodup :=
          hsortperm.nodup_iff.2 hnodup
        obtain ⟨hids, -⟩ := BinPacking.phase2Fuel_ids
          (BinPacking.sortedItemsOf input).length
          (BinPacking.allocCtxOf input cfg rt sc)
          ⟨BinPacking.sortedItemsOf input, [], [],
            ["Wszystkie meble nie mieszczą się na jednej palecie"]⟩ hnodup2
        have hdrained := BinPacking.phase2Fuel_complete
          (BinPacking.sortedItemsOf input).length
          (BinPacking.allocCtxOf input cfg rt sc)
          ⟨BinPacking.sortedItemsOf input, [], [],
            ["Wszystkie meble nie mieszczą się na jednej palecie"]⟩ le_rfl
        unfold BinPacking.stateIds at hids
        rw [hdrained] at hids
        simp only [List.map_nil, List.append_nil, List.flatMap_nil, List.nil_append] at hids
        exact List.Perm.trans hids hsortperm

/-- Witness for C10 at a concrete input: a single item (trivially distinct
    ids) is placed exactly once. -/
theorem optimizeMultiItem_partitions_items_witness :
    (((BinPacking.optimizeMultiItem c3Input ⟨[c3PalletStd]⟩ c3RateTable
          c3Surcharges).allocations.flatMap
        (fun a => a.items.map (fun pl => pl.item.id))) ++
      (BinPacking.optimizeMultiItem c3Input ⟨[c3PalletStd]⟩ c3RateTable
          c3Surcharges).unallocated.map (fun u => u.item.id)).Perm
      (c3Input.items.map (fun it => it.id)) :=
  optimizeMultiItem_partitions_items c3Input ⟨[c3PalletStd]⟩ c3RateTable c3Surcharges
    (by decide)

/-- C9: the rejection reasons emitted by `optimize` are drawn only from
    OVERHANG, WEIGHT_LIMIT and NO_RATE_MATCH; the declared reason code
    HEIGHT_LIMIT is never produced (a purely height-caused failure
    surfaces as OVERHANG because `check3DFit` folds the height comparison
    into the overall fit check). -/
theorem optimize_reasons_subset (input : CalculationInput) (cfg : PalletTypesConfig)
    (rt : RateTableConfig) (sc : SurchargesConfig) (e : RejectedResult)
    (he : e ∈ (Optimizer.optimize input cfg rt sc).rejected) (r : RejectionReason)
    (hr : r ∈ e.reasons) :
    r = RejectionReason.OVERHANG ∨ r = RejectionReason.WEIGHT_LIMIT ∨
      r = RejectionReason.NO_RATE_MATCH := by
  simp only [Optimizer.optimize, List.mem_filterMap] at he
  obtain ⟨pallet, _, hsome⟩ := he
  by_cases hemp : (Optimizer.palletRejectionReasons input rt pallet).isEmpty
  · rw [if_pos hemp] at hsome; exact absurd hsome (by simp)
  · rw [if_neg hemp] at hsome
    have he2 : e.reasons = Optimizer.palletRejectionReasons input rt pallet := by
      cases hsome; rfl
    rw [he2] at hr
    unfold Optimizer.palletRejectionReasons at hr
    rcases List.mem_append.1 hr with h1 | h2
    · rcases List.mem_append.1 h1 with h3 | h4
      · left
        rcases hfit : (Optimizer.palletFitResult input pallet).fits with _ | _ <;>
          simp [hfit] at h3
        · exact h3
      · right; left
        by_cases hw : input.weightKg >
            (getEffectiveLimits input.options pallet.maxHeightCm pallet.maxWeightKg).maxWeightKg <;>
          simp [hw] at h4
        · exact h4
    · right; right
      cases hrate : findRate rt pallet.category input.weightKg input.distanceBand <;>
        simp [hrate] at h2
      · exact h2

/-- Witness for C9 at a concrete input: the single rejection entry of an
    oversized item over an empty rate table carries only allowed reasons. -/
theorem optimize_reasons_subset_witness :
    RejectionReason.OVERHANG = RejectionReason.OVERHANG ∨
      RejectionReason.OVERHANG = RejectionReason.WEIGHT_LIMIT ∨
      RejectionReason.OVERHANG = RejectionReason.NO_RATE_MATCH :=
  optimize_reasons_subset
    { lengthCm := 300, widthCm := 300, heightCm := 300, weightKg := 2000
      distanceBand := .LE_100, options := ⟨false, false⟩, packagingMarginCm := 0 }
    ⟨[{ id := "P", displayName := none, lengthM := 1, widthM := 1
        maxHeightCm := 215, maxWeightKg := 500, category := .HALF }]⟩
    ⟨fun _ => none⟩
    { fuelPercent := 0, roadPercent := 0, vatPercent := 0, minimumNetPrice := 0
      validFrom := "", validTo := "" }
    ⟨{ id := "P", displayName := none, lengthM := 1, widthM := 1
       maxHeightCm := 215, maxWeightKg := 500, category := .HALF },
      [.OVERHANG, .WEIGHT_LIMIT, .NO_RATE_MATCH]⟩
    (by decide) RejectionReason.OVERHANG (by decide)
